import Mathlib

/-!
Formal model of the scraping job engine of this repository
(src/server/scraper.ts): the in-memory job tracker (activeJobs map),
the scrape engine (Scraper.scrapeSource) and the extraction tiers
(Scraper.scrapeGenericWebsite, Scraper.scrapeWithGenericSelectors,
Scraper.scrapeCommercialRealEstate).

Modelling conventions.
The Lead/Source/Job store (imported as dbStorage from ./db-storage, whose
source is not under src/) is, per the specification, an external collaborator
with operations createJob / updateJob / createLead; it is modelled as a pure
state: an association list of ScrapingJob records plus a counter of persisted
leads.  The HTML fetch+query facility (fetch + cheerio) is likewise external:
a page is modelled as the data the engine reads off it (the text each
configured or hard-coded selector resolves to), packaged in an Env value.
Machine clock: a Nat counter bumped at every awaited operation, so Date.now
is monotone.  Concurrency: the engine suspends at its await points; at each
suspension point (and, more generously, at each iteration of an extraction
loop, which re-reads the shared activeJobs map) one external tracker
operation (pause / resume / cancel of the modelled job) may run, given by a
schedule (List Ev); an exhausted schedule means no further external activity.
A run that waits forever inside waitForResume is reported as RunResult.hang.
Thrown JavaScript values are either Error objects carrying a message
(Thrown.errObj) or arbitrary non-Error values (Thrown.nonErr); the engine
code branches on (error instanceof Error).
A ghost trace of observable events (lead persisted, progress written, job
status written, configuration error raised) is threaded through the state;
it has no influence on control flow.
-/

/-- Status values stored in the in-memory activeJobs map
(src/server/scraper.ts line 27). -/
inductive JStatus
  | running
  | paused
  | completed
  | failed
deriving DecidableEq, Repr

/-- Status values persisted on a ScrapingJob record
(running, paused, completed, failed, cancelled). -/
inductive DbStatus
  | running
  | paused
  | completed
  | failed
  | cancelled
deriving DecidableEq, Repr

/-- Modelled from the spec: a persisted ScrapingJob row of the external
Lead/Source/Job store (db-storage is not under src/); fields follow the
ScrapingJob shape in the spec data model and the createScrapingJob /
updateScrapingJob call sites in scraper.ts. -/
structure JobRecord where
  sourceId : Nat
  status : DbStatus
  startTime : Nat
  endTime : Option Nat
  leadsFound : Nat
  leadsAdded : Nat
  error : Option String
deriving DecidableEq, Repr

/-- One entry of the in-memory activeJobs map: the owning source id
(info.job.sourceId), the progress percentage and the status mirror.
The cancel closure is modelled by the cancelFlag of the engine state. -/
structure JobInfo where
  sourceId : Nat
  progress : Nat
  status : JStatus
deriving DecidableEq, Repr

/-- A scraped lead record, projected to the field the engine logic reads
(companyName; the remaining fields are copied opaquely into the store). -/
structure Lead where
  companyName : String
deriving DecidableEq, Repr

/-- Ghost observation events: a successful createLead (with the activeJobs
status of the job at that moment), an updateJobProgress write (value and
status at that moment), a persisted status write, and the throw site of
the selectors-configuration error. -/
inductive TraceEv
  | persistLead (obs : Option JStatus)
  | progressWrite (v : Nat) (obs : Option JStatus)
  | jobStatusWrite (s : DbStatus)
  | configError
deriving DecidableEq, Repr

/-- The mutable state visible to one engine run: the shared activeJobs map,
the external job store, the count of persisted leads, the id the store will
give the next created job, a monotone clock, the cancellation flag of the
run (the isCancelled closure variable), the lastScraped update of the
source, and the ghost trace. -/
structure EngineState where
  activeJobs : List (Nat × JobInfo)
  dbJobs : List (Nat × JobRecord)
  dbLeads : Nat
  nextJobId : Nat
  clock : Nat
  cancelFlag : Bool
  lastScraped : Option Nat
  trace : List TraceEv
deriving Repr

/-- External tracker operations that may run while the engine is suspended:
nothing (tick), or a pause/resume/cancel request for the modelled job. -/
inductive Ev
  | tick
  | pauseReq
  | resumeReq
  | cancelReq
deriving DecidableEq, Repr

/-- Outcome of one scrapeSource call: the synchronous concurrency throw,
a returned lead count, or a run stuck forever in the pause-wait loop. -/
inductive RunResult
  | hang
  | threw (msg : String)
  | returned (count : Nat)
deriving DecidableEq, Repr

/-- Association-list lookup keyed by Nat (Map.get). -/
def alookup {α : Type} : List (Nat × α) → Nat → Option α
  | [], _ => none
  | p :: rest, k => if p.1 = k then some p.2 else alookup rest k

/-- Association-list in-place update of every entry at the key (Map.set of
a mutated entry). -/
def aupdate {α : Type} (l : List (Nat × α)) (k : Nat) (f : α → α) : List (Nat × α) :=
  l.map fun p => if p.1 = k then (p.1, f p.2) else p

/-- Association-list removal (Map.delete). -/
def aremove {α : Type} (l : List (Nat × α)) (k : Nat) : List (Nat × α) :=
  l.filter fun p => p.1 != k

/-- JavaScript String.prototype.includes (case sensitive substring test). -/
def strIncludes (s w : String) : Bool :=
  decide (w.toList <:+: s.toList)

/-- JavaScript String.prototype.trim over the character list of the
string: drop leading and trailing whitespace. -/
def strTrim (s : String) : String :=
  String.mk (((s.data.dropWhile Char.isWhitespace).reverse.dropWhile Char.isWhitespace).reverse)

/-- Selector configuration of a source, restricted to the two selectors the
engine logic branches on; the remaining field selectors only fill lead
fields that are stored opaquely.  A missing field models an absent (falsy)
property of the dynamically typed selectors object. -/
structure Selectors where
  leadContainer : Option String
  companyName : Option String
deriving DecidableEq, Repr

/-- A ScrapingSource row as the engine reads it: id, name (drives the
Commercial Real Estate specialisation), url, and the selectors object
(none models a missing/null selectors configuration). -/
structure ScrapingSource where
  id : Nat
  name : String
  url : String
  selectors : Option Selectors
deriving DecidableEq, Repr

/-- Result of one fetch call: the promise may reject with a thrown value;
otherwise the response carries ok and status. -/
inductive Thrown
  | errObj (msg : String)
  | nonErr
deriving DecidableEq, Repr

/-- Outcome of a fetch of one url. -/
structure FetchOutcome where
  rejected : Option Thrown
  httpOk : Bool
  httpStatus : Nat
deriving DecidableEq, Repr

/-- One element matching the configured leadContainer selector, as read by
the engine: the text the configured companyName selector resolves to inside
it (before trimming). -/
structure Container where
  nameText : String
deriving DecidableEq, Repr

/-- One element matching the hard-coded generic business-card patterns, as
read by the fallback extractor: the text of its first h2/h3/.title/.name/
.business-name descendant (before trimming). -/
structure Card where
  title : String
deriving DecidableEq, Repr

/-- One property element found by the Commercial Real Estate selector
cascade, as read by the specialised extractor: title, raw address text and
agency name (each before trimming). -/
structure CreItem where
  title : String
  address : String
  agencyName : String
deriving DecidableEq, Repr

/-- The external world of one run: fetch outcomes for the three fetch call
sites, the query results the pages give back for each selector family, and
the per-index success of the external createLead calls. -/
structure Env where
  fetchMain : FetchOutcome
  containers : List Container
  fetchFb : FetchOutcome
  cards : List Card
  headings : List String
  fetchCre : FetchOutcome
  creFound : Bool
  creItems : List CreItem
  creHeadings : List String
  persistOk : Nat → Bool

/-- isScrapingRunning (scraper.ts lines 34-39): true iff some activeJobs
entry for the source has status running or paused. -/
def isScrapingRunning (st : EngineState) (sourceId : Nat) : Bool :=
  st.activeJobs.any fun p =>
    decide (p.2.sourceId = sourceId ∧ (p.2.status = JStatus.running ∨ p.2.status = JStatus.paused))

/-- storage.updateScrapingJob wrapper: apply the partial update to the
record, log the written status, bump the clock (it is awaited). -/
def dbUpdateJob (st : EngineState) (jid : Nat) (f : JobRecord → JobRecord)
    (written : DbStatus) : EngineState :=
  { st with
    dbJobs := aupdate st.dbJobs jid f
    trace := TraceEv.jobStatusWrite written :: st.trace
    clock := st.clock + 1 }

/-- pauseScrapingJob (lines 52-63): running entry becomes paused in the map
and in the store; otherwise false and no change. -/
def pauseScrapingJob (st : EngineState) (jid : Nat) : Bool × EngineState :=
  match alookup st.activeJobs jid with
  | some info =>
      if info.status = JStatus.running then
        let st := { st with activeJobs := aupdate st.activeJobs jid fun i => { i with status := JStatus.paused } }
        (true, dbUpdateJob st jid (fun r => { r with status := DbStatus.paused }) DbStatus.paused)
      else (false, st)
  | none => (false, st)

/-- resumeScrapingJob (lines 66-77): paused entry becomes running in the map
and in the store; otherwise false and no change. -/
def resumeScrapingJob (st : EngineState) (jid : Nat) : Bool × EngineState :=
  match alookup st.activeJobs jid with
  | some info =>
      if info.status = JStatus.paused then
        let st := { st with activeJobs := aupdate st.activeJobs jid fun i => { i with status := JStatus.running } }
        (true, dbUpdateJob st jid (fun r => { r with status := DbStatus.running }) DbStatus.running)
      else (false, st)
  | none => (false, st)

/-- cancelScrapingJob (lines 80-96): if the entry exists, fire the cancel
closure (set the flag of the run), persist status cancelled with an end
time, remove the entry; otherwise false. -/
def cancelScrapingJob (st : EngineState) (jid : Nat) : Bool × EngineState :=
  match alookup st.activeJobs jid with
  | some _ =>
      let st := { st with cancelFlag := true }
      let st := dbUpdateJob st jid
        (fun r => { r with status := DbStatus.cancelled, endTime := some st.clock })
        DbStatus.cancelled
      (true, { st with activeJobs := aremove st.activeJobs jid })
  | none => (false, st)

/-- updateJobProgress (lines 232-239): store the given value on the entry
as is; no-op when the entry is absent. -/
def updateJobProgress (st : EngineState) (jid : Nat) (p : Nat) : EngineState :=
  match alookup st.activeJobs jid with
  | some info =>
      { st with
        activeJobs := aupdate st.activeJobs jid fun i => { i with progress := p }
        trace := TraceEv.progressWrite p (some info.status) :: st.trace }
  | none => st

/-- Apply one scheduled external tracker operation on the modelled job. -/
def applyEv (jid : Nat) (e : Ev) (st : EngineState) : EngineState :=
  match e with
  | Ev.tick => st
  | Ev.pauseReq => (pauseScrapingJob st jid).2
  | Ev.resumeReq => (resumeScrapingJob st jid).2
  | Ev.cancelReq => (cancelScrapingJob st jid).2

/-- One suspension point of the engine: the clock advances and the next
scheduled external operation (if any is left) runs. -/
def awaitPt (jid : Nat) (st : EngineState) (sched : List Ev) : EngineState × List Ev :=
  let st := { st with clock := st.clock + 1 }
  match sched with
  | [] => (st, [])
  | e :: rest => (applyEv jid e st, rest)

/-- storage.createScrapingJob at the start of scrapeSource (lines 105-112):
a fresh row with status running, startTime now, zero counts, no error. -/
def createScrapingJob (st : EngineState) (sourceId : Nat) : Nat × EngineState :=
  let jid := st.nextJobId
  let rec0 : JobRecord :=
    { sourceId := sourceId
      status := DbStatus.running
      startTime := st.clock
      endTime := none
      leadsFound := 0
      leadsAdded := 0
      error := none }
  (jid, { st with
            dbJobs := (jid, rec0) :: st.dbJobs
            nextJobId := jid + 1
            clock := st.clock + 1
            trace := TraceEv.jobStatusWrite DbStatus.running :: st.trace })

/-- activeJobs.set at lines 119-124: register the entry with progress 0 and
status running. -/
def registerActive (st : EngineState) (jid : Nat) (sourceId : Nat) : EngineState :=
  { st with activeJobs := (jid, { sourceId := sourceId, progress := 0, status := JStatus.running }) :: st.activeJobs }

/-- Lines 114-124 of scrapeSource: create the job row (awaited), create the
fresh cancellation closure, register the active entry. -/
def startState (source : ScrapingSource) (st : EngineState) : Nat × EngineState :=
  let st := { st with cancelFlag := false }
  let (jid, st) := createScrapingJob st source.id
  (jid, registerActive st jid source.id)

/-- The pure lead collection the configured-selector loop performs over a
container list when never interrupted: trim the companyName text (an absent
companyName selector resolves to empty text, whether cheerio yields an
empty selection or the per-element catch skips the element), skip empty
names, keep the rest. -/
def collectG (sel : Selectors) (cs : List Container) : List Lead :=
  cs.filterMap fun c =>
    let nm := match sel.companyName with
      | none => ""
      | some _ => strTrim c.nameText
    if nm = "" then none else some { companyName := nm }

/-- The containers.each loop of scrapeGenericWebsite (lines 292-335): at
each element re-read the activeJobs entry and stop when it is gone or
paused; skip elements with an empty trimmed company name; push the lead and
write progress min(30 + processed/total*20, 50) otherwise.  One scheduled
external operation may run per iteration (the loop re-reads shared state
each time round). -/
def extractLoopG (jid total : Nat) (sel : Selectors) :
    List Container → Nat → List Lead → EngineState → List Ev →
    List Lead × EngineState × List Ev
  | [], _, acc, st, sched => (acc.reverse, st, sched)
  | c :: rest, processed, acc, st, sched =>
      let (st, sched) := awaitPt jid st sched
      match alookup st.activeJobs jid with
      | none => (acc.reverse, st, sched)
      | some info =>
          if info.status = JStatus.paused then (acc.reverse, st, sched)
          else
            let nm := match sel.companyName with
              | none => ""
              | some _ => strTrim c.nameText
            if nm = "" then extractLoopG jid total sel rest processed acc st sched
            else
              let st := updateJobProgress st jid (min (30 + ((processed + 1) * 20) / total) 50)
              extractLoopG jid total sel rest (processed + 1) ({ companyName := nm } :: acc) st sched

/-- The leads scrapeWithGenericSelectors assembles, as a pure function of
the page: when no business card matched, one lead per h2/h3 heading with
trimmed text longer than 3; then one lead per card with a non-empty trimmed
title; error when the fetch failed or nothing was collected. -/
def fallbackLeads (env : Env) : Except Thrown (List Lead) :=
  match env.fetchFb.rejected with
  | some t => Except.error t
  | none =>
      if env.fetchFb.httpOk = false then
        Except.error (Thrown.errObj ("Failed to fetch page: " ++ toString env.fetchFb.httpStatus))
      else
        let lastResort : List Lead :=
          if env.cards.length = 0 then
            env.headings.filterMap fun h =>
              let t := strTrim h
              if 3 < t.length then some { companyName := t } else none
          else []
        let cardLeads : List Lead :=
          env.cards.filterMap fun c =>
            let t := strTrim c.title
            if t = "" then none else some { companyName := t }
        if (lastResort ++ cardLeads).length = 0 then
          Except.error (Thrown.errObj "No lead data could be extracted using generic selectors")
        else Except.ok (lastResort ++ cardLeads)

/-- scrapeWithGenericSelectors (lines 359-472): fetch the url again, write
progress 30, collect leads off the hard-coded card patterns (or the h2/h3
last resort when no card matched; neither loop consults the job status),
write progress 50, throw when nothing was collected. -/
def scrapeWithGenericSelectors (env : Env) (jid : Nat) (st : EngineState) (sched : List Ev) :
    Except Thrown (List Lead) × EngineState × List Ev :=
  let (st, sched) := awaitPt jid st sched
  match env.fetchFb.rejected with
  | some t => (Except.error t, st, sched)
  | none =>
      if env.fetchFb.httpOk = false then
        (Except.error (Thrown.errObj ("Failed to fetch page: " ++ toString env.fetchFb.httpStatus)), st, sched)
      else
        let (st, sched) := awaitPt jid st sched
        let st := updateJobProgress st jid 30
        let lastResort : List Lead :=
          if env.cards.length = 0 then
            env.headings.filterMap fun h =>
              let t := strTrim h
              if 3 < t.length then some { companyName := t } else none
          else []
        let cardLeads : List Lead :=
          env.cards.filterMap fun c =>
            let t := strTrim c.title
            if t = "" then none else some { companyName := t }
        let st := updateJobProgress st jid 50
        if (lastResort ++ cardLeads).length = 0 then
          (Except.error (Thrown.errObj "No lead data could be extracted using generic selectors"), st, sched)
        else (Except.ok (lastResort ++ cardLeads), st, sched)

/-- The try block of scrapeGenericWebsite (lines 259-343): progress 10,
fetch (throwing on rejection or a non-ok response), progress 20, fail fast
with the configuration error when the selectors object or its leadContainer
is missing (the configError ghost event marks that throw site), progress
30, run the container loop, and when it collected nothing delegate to
scrapeWithGenericSelectors from inside the try. -/
def genericTry (source : ScrapingSource) (env : Env) (jid : Nat)
    (st : EngineState) (sched : List Ev) :
    Except Thrown (List Lead) × EngineState × List Ev :=
  let st := updateJobProgress st jid 10
  let (st, sched) := awaitPt jid st sched
  match env.fetchMain.rejected with
  | some t => (Except.error t, st, sched)
  | none =>
      if env.fetchMain.httpOk = false then
        (Except.error (Thrown.errObj ("Failed to fetch page: " ++ toString env.fetchMain.httpStatus)), st, sched)
      else
        let (st, sched) := awaitPt jid st sched
        let st := updateJobProgress st jid 20
        match source.selectors with
        | none =>
            (Except.error (Thrown.errObj "Invalid selectors configuration"),
              { st with trace := TraceEv.configError :: st.trace }, sched)
        | some sel =>
            match sel.leadContainer with
            | none =>
                (Except.error (Thrown.errObj "Invalid selectors configuration"),
                  { st with trace := TraceEv.configError :: st.trace }, sched)
            | some _ =>
                let st := updateJobProgress st jid 30
                let (leads, st, sched) :=
                  extractLoopG jid env.containers.length sel env.containers 0 [] st sched
                if leads.length = 0 then scrapeWithGenericSelectors env jid st sched
                else (Except.ok leads, st, sched)

/-- scrapeGenericWebsite (lines 258-356): run the try block; on any throw,
attempt scrapeWithGenericSelectors once more from the catch and, when that
also throws, rethrow the original error. -/
def scrapeGenericWebsite (source : ScrapingSource) (env : Env) (jid : Nat)
    (st : EngineState) (sched : List Ev) :
    Except Thrown (List Lead) × EngineState × List Ev :=
  match genericTry source env jid st sched with
  | (Except.ok l, st, sched) => (Except.ok l, st, sched)
  | (Except.error t, st, sched) =>
      match scrapeWithGenericSelectors env jid st sched with
      | (Except.ok l, st, sched) => (Except.ok l, st, sched)
      | (Except.error _, st, sched) => (Except.error t, st, sched)

/-- Suburb extraction of the Commercial Real Estate scraper (lines
583-600): split the address on commas; with more than one part take the
trimmed second-to-last part. -/
def suburbOf (address : String) : String :=
  if address = "" then ""
  else
    let parts := address.splitOn ","
    if 1 < parts.length then strTrim ((parts.get? (parts.length - 2)).getD "")
    else ""

/-- Company name synthesis of one Commercial Real Estate listing (line
612): agency name, else title, else a name built from the suburb. -/
def creCompanyName (title suburb agency : String) : String :=
  if agency = "" then
    if title = "" then "Property in " ++ (if suburb = "" then "Australia" else suburb)
    else title
  else agency

/-- The pure lead collection of the Commercial Real Estate element loop
when never interrupted: skip untitled elements when only the fallback
selector matched, otherwise synthesise the company name. -/
def collectCre (found : Bool) (items : List CreItem) : List Lead :=
  items.filterMap fun it =>
    let title := strTrim it.title
    if title = "" ∧ found = false then none
    else some { companyName := creCompanyName title (suburbOf (strTrim it.address)) (strTrim it.agencyName) }

/-- The propertyElements.each loop of scrapeCommercialRealEstate (lines
560-640): stop when the entry is gone or paused; skip untitled elements
unless a standard selector matched; push the synthesised lead and write
progress min(40 + processed/total*10, 50). -/
def extractLoopCre (jid total : Nat) (found : Bool) :
    List CreItem → Nat → List Lead → EngineState → List Ev →
    List Lead × EngineState × List Ev
  | [], _, acc, st, sched => (acc.reverse, st, sched)
  | it :: rest, processed, acc, st, sched =>
      let (st, sched) := awaitPt jid st sched
      match alookup st.activeJobs jid with
      | none => (acc.reverse, st, sched)
      | some info =>
          if info.status = JStatus.paused then (acc.reverse, st, sched)
          else
            let title := strTrim it.title
            if title = "" ∧ found = false then
              extractLoopCre jid total found rest processed acc st sched
            else
              let lead : Lead :=
                { companyName := creCompanyName title (suburbOf (strTrim it.address)) (strTrim it.agencyName) }
              let st := updateJobProgress st jid (min (40 + ((processed + 1) * 10) / total) 50)
              extractLoopCre jid total found rest (processed + 1) (lead :: acc) st sched

/-- scrapeCommercialRealEstate (lines 475-679): fetch, progress milestones
10/20/30, the selector cascade (its matches arrive as creItems, with
creFound recording whether a standard selector matched), throw when no
property element was found, progress 40, run the element loop, the h1-h4
last resort when it collected nothing (headings longer than 3 characters
not mentioning login / sign in), and throw when still empty. -/
def scrapeCommercialRealEstate (env : Env) (jid : Nat)
    (st : EngineState) (sched : List Ev) :
    Except Thrown (List Lead) × EngineState × List Ev :=
  let st := updateJobProgress st jid 10
  let (st, sched) := awaitPt jid st sched
  match env.fetchCre.rejected with
  | some t => (Except.error t, st, sched)
  | none =>
      if env.fetchCre.httpOk = false then
        (Except.error (Thrown.errObj ("Failed to fetch page: " ++ toString env.fetchCre.httpStatus)), st, sched)
      else
        let (st, sched) := awaitPt jid st sched
        let st := updateJobProgress st jid 20
        let st := updateJobProgress st jid 30
        if env.creItems.length = 0 then
          (Except.error (Thrown.errObj "No property listings found on the page"), st, sched)
        else
          let st := updateJobProgress st jid 40
          let (leads, st, sched) :=
            extractLoopCre jid env.creItems.length env.creFound env.creItems 0 [] st sched
          let leads :=
            if leads.length = 0 then
              env.creHeadings.filterMap fun h =>
                let t := strTrim h
                if 3 < t.length ∧ strIncludes t.toLower "login" = false ∧
                    strIncludes t.toLower "sign in" = false then
                  some { companyName := t }
                else none
            else leads
          if leads.length = 0 then
            (Except.error (Thrown.errObj "No lead data could be extracted from the page"), st, sched)
          else (Except.ok leads, st, sched)

/-- The extraction dispatch of scrapeSource (lines 131-137): sources whose
name includes Commercial Real Estate use the specialised scraper, the rest
the configured-selectors scraper. -/
def extractPhase (source : ScrapingSource) (env : Env) (jid : Nat)
    (st : EngineState) (sched : List Ev) :
    Except Thrown (List Lead) × EngineState × List Ev :=
  if strIncludes source.name "Commercial Real Estate" then
    scrapeCommercialRealEstate env jid st sched
  else
    scrapeGenericWebsite source env jid st sched

/-- waitForResume (lines 242-255): resolve as soon as the entry is gone or
its status is running, completed or failed; otherwise poll again after the
next scheduled external operation; an exhausted schedule while still paused
models a wait that never ends (none). -/
def waitForResume (jid : Nat) :
    EngineState → List Ev → Option Unit × EngineState × List Ev
  | st, [] =>
      match alookup st.activeJobs jid with
      | none => (some (), st, [])
      | some info =>
          if info.status = JStatus.paused then (none, st, [])
          else (some (), st, [])
  | st, e :: rest =>
      match alookup st.activeJobs jid with
      | none => (some (), st, e :: rest)
      | some info =>
          if info.status = JStatus.paused then
            waitForResume jid (applyEv jid e { st with clock := st.clock + 1 }) rest
          else (some (), st, e :: rest)

/-- The lead persistence loop of scrapeSource (lines 148-183): per lead,
break on the cancel flag, await createLead (a failure is caught and the
rest of the body skipped), count the success, write progress
50 + i/total*50, and when the entry shows paused block in waitForResume,
breaking afterwards if cancelled during the pause. -/
def persistLoop (jid total : Nat) (env : Env) :
    List Lead → Nat → Nat → EngineState → List Ev →
    Option Nat × EngineState × List Ev
  | [], _, saved, st, sched => (some saved, st, sched)
  | _ :: rest, i, saved, st, sched =>
      if st.cancelFlag then (some saved, st, sched)
      else
        let (st, sched) := awaitPt jid st sched
        if env.persistOk i then
          let obs := (alookup st.activeJobs jid).map JobInfo.status
          let st := { st with dbLeads := st.dbLeads + 1, trace := TraceEv.persistLead obs :: st.trace }
          let saved := saved + 1
          let st := updateJobProgress st jid (50 + (i * 50) / total)
          match alookup st.activeJobs jid with
          | some info =>
              if info.status = JStatus.paused then
                match waitForResume jid st sched with
                | (none, st, sched) => (none, st, sched)
                | (some _, st, sched) =>
                    if st.cancelFlag then (some saved, st, sched)
                    else persistLoop jid total env rest (i + 1) saved st sched
              else persistLoop jid total env rest (i + 1) saved st sched
          | none => persistLoop jid total env rest (i + 1) saved st sched
        else persistLoop jid total env rest (i + 1) saved st sched

/-- scrapeSource (lines 98-230): reject synchronously when a job is already
running or paused for the source; otherwise create and register the job,
run the extraction phase, and either finalize as failed (a non-Error thrown
value skips the store update), bail out when cancelled during extraction,
or persist the leads, finalizing as cancelled (counts untouched) or
completed (endTime, leadsFound, leadsAdded written, lastScraped updated,
entry deregistered).  The terminal updateScrapingJob writes (completed at
line 192, failed at line 215) and the updateScrapingSource write (line 200)
are awaited while the activeJobs entry is still registered — the entry is
deleted only afterwards (lines 205 and 226) — so each of those suspension
points dispenses one external-operation slot: a cancel landing there still
finds the entry and overwrites the just-written terminal status. -/
def scrapeSource (source : ScrapingSource) (env : Env) (sched : List Ev)
    (st : EngineState) : RunResult × EngineState :=
  if isScrapingRunning st source.id then
    (RunResult.threw ("A scraping job is already running for source #" ++ toString source.id), st)
  else
    let (jid, st) := startState source st
    let (exr, st, sched) := extractPhase source env jid st sched
    match exr with
    | Except.error t =>
        let st :=
          match t with
          | Thrown.errObj m =>
              (awaitPt jid
                (dbUpdateJob st jid
                  (fun r => { r with status := DbStatus.failed, endTime := some st.clock, error := some m })
                  DbStatus.failed)
                sched).1
          | Thrown.nonErr => st
        (RunResult.returned 0, { st with activeJobs := aremove st.activeJobs jid })
    | Except.ok scrapedLeads =>
        if st.cancelFlag then (RunResult.returned 0, st)
        else
          let st := updateJobProgress st jid 50
          match persistLoop jid scrapedLeads.length env scrapedLeads 0 0 st sched with
          | (none, st, _) => (RunResult.hang, st)
          | (some saved, st, sched) =>
              if st.cancelFlag then
                (RunResult.returned saved, { st with activeJobs := aremove st.activeJobs jid })
              else
                let st := dbUpdateJob st jid
                  (fun r => { r with
                                status := DbStatus.completed
                                endTime := some st.clock
                                leadsFound := scrapedLeads.length
                                leadsAdded := saved })
                  DbStatus.completed
                let (st, sched) := awaitPt jid st sched
                let st := { st with lastScraped := some st.clock, clock := st.clock + 1 }
                let (st, _) := awaitPt jid st sched
                (RunResult.returned saved, { st with activeJobs := aremove st.activeJobs jid })

/-- Interleaving of two concurrent scrapeSource calls A and B on the same
source in which both reach the isScrapingRunning check before either
createScrapingJob await resolves — a schedule the source admits because the
check (line 100) and the activeJobs.set registration (line 119) are
separated by the awaited storage.createScrapingJob call (line 105).  Each
call proceeds to create and register only when its own check passed. -/
def raceTwoStarts (source : ScrapingSource) (st : EngineState) :
    Bool × Bool × EngineState :=
  let a := isScrapingRunning st source.id
  let b := isScrapingRunning st source.id
  let st :=
    if a then st
    else
      let (jid, st) := createScrapingJob st source.id
      registerActive st jid source.id
  let st :=
    if b then st
    else
      let (jid, st) := createScrapingJob st source.id
      registerActive st jid source.id
  (a, b, st)

/-- Well-formed starting state for one run: every persisted job id and
every registered entry id is below the id the store hands out next. -/
def WF (st : EngineState) : Prop :=
  (∀ p ∈ st.dbJobs, p.1 < st.nextJobId) ∧ (∀ p ∈ st.activeJobs, p.1 < st.nextJobId)

theorem alookup_aupdate {α : Type} (l : List (Nat × α)) (k k' : Nat) (f : α → α) :
    alookup (aupdate l k f) k' =
      if k' = k then (alookup l k').map f else alookup l k' := by
  induction l with
  | nil => simp [alookup, aupdate]
  | cons p rest ih =>
      simp only [aupdate, List.map_cons, alookup, ih] at *
      by_cases h1 : p.1 = k <;> by_cases h2 : p.1 = k' <;> by_cases h3 : k' = k <;>
        simp_all [alookup]

theorem alookup_aupdate_self {α : Type} (l : List (Nat × α)) (k : Nat) (f : α → α) :
    alookup (aupdate l k f) k = (alookup l k).map f := by
  simp [alookup_aupdate]

theorem alookup_aremove_self {α : Type} (l : List (Nat × α)) (k : Nat) :
    alookup (aremove l k) k = none := by
  induction l with
  | nil => rfl
  | cons p rest ih =>
      simp only [aremove] at *
      rw [List.filter_cons]
      by_cases h : p.1 = k
      · simp [h, ih]
      · simp [bne_iff_ne, h, alookup, ih]

theorem alookup_fresh {α : Type} (l : List (Nat × α)) (n : Nat)
    (h : ∀ p ∈ l, p.1 < n) : alookup l n = none := by
  induction l with
  | nil => rfl
  | cons p rest ih =>
      have hp := h p (List.mem_cons_self p rest)
      have : p.1 ≠ n := Nat.ne_of_lt hp
      simp only [alookup, if_neg this]
      exact ih fun q hq => h q (List.mem_cons_of_mem p hq)

theorem isScrapingRunning_of_mem {st : EngineState} {sourceId : Nat}
    (h : ∃ p ∈ st.activeJobs, p.2.sourceId = sourceId ∧
        (p.2.status = JStatus.running ∨ p.2.status = JStatus.paused)) :
    isScrapingRunning st sourceId = true := by
  rcases h with ⟨p, hp, h1, h2⟩
  simp only [isScrapingRunning, List.any_eq_true]
  exact ⟨p, hp, by simp [h1, h2]⟩

/-- Relation between the state at the start and at the end of any engine
phase that does not write a terminal status to the store: the clock is
monotone, the cancellation flag is never reset, leads are only added, the
startTime / leadsFound / leadsAdded fields of the job row are preserved and
its status never turns to completed, no completed or failed status write is
logged, and a logged cancelled write forces the cancellation flag. -/
structure PhaseInv (jid : Nat) (st st' : EngineState) : Prop where
  clock_le : st.clock ≤ st'.clock
  flag_mono : st.cancelFlag = true → st'.cancelFlag = true
  dbLeads_le : st.dbLeads ≤ st'.dbLeads
  pres : ∀ rec, alookup st.dbJobs jid = some rec →
    ∃ rec', alookup st'.dbJobs jid = some rec'
  rec_rel : ∀ rec', alookup st'.dbJobs jid = some rec' →
    ∃ rec, alookup st.dbJobs jid = some rec ∧ rec'.startTime = rec.startTime ∧
      rec'.leadsFound = rec.leadsFound ∧ rec'.leadsAdded = rec.leadsAdded ∧
      (rec'.status = DbStatus.completed → rec.status = DbStatus.completed)
  trace_sub : ∀ e ∈ st'.trace, e ∈ st.trace ∨
    (e ≠ TraceEv.jobStatusWrite DbStatus.completed ∧ e ≠ TraceEv.jobStatusWrite DbStatus.failed)
  canc_flag : TraceEv.jobStatusWrite DbStatus.cancelled ∈ st'.trace →
    TraceEv.jobStatusWrite DbStatus.cancelled ∈ st.trace ∨ st'.cancelFlag = true

theorem phaseInv_refl (jid : Nat) (st : EngineState) : PhaseInv jid st st where
  clock_le := Nat.le_refl _
  flag_mono := fun h => h
  dbLeads_le := Nat.le_refl _
  pres := fun rec h => ⟨rec, h⟩
  rec_rel := fun rec' h => ⟨rec', h, Eq.refl _, Eq.refl _, Eq.refl _, fun hc => hc⟩
  trace_sub := fun _ he => Or.inl he
  canc_flag := fun h => Or.inl h

theorem phaseInv_trans {jid : Nat} {st1 st2 st3 : EngineState}
    (a : PhaseInv jid st1 st2) (b : PhaseInv jid st2 st3) : PhaseInv jid st1 st3 where
  clock_le := Nat.le_trans a.clock_le b.clock_le
  flag_mono := fun h => b.flag_mono (a.flag_mono h)
  dbLeads_le := Nat.le_trans a.dbLeads_le b.dbLeads_le
  pres := fun rec h => by
    rcases a.pres rec h with ⟨r2, h2⟩
    exact b.pres r2 h2
  rec_rel := fun rec' h => by
    rcases b.rec_rel rec' h with ⟨r2, h2, e1, e2, e3, hc⟩
    rcases a.rec_rel r2 h2 with ⟨r1, h1, f1, f2, f3, fc⟩
    exact ⟨r1, h1, e1.trans f1, e2.trans f2, e3.trans f3, fun hcc => fc (hc hcc)⟩
  trace_sub := fun e he => by
    rcases b.trace_sub e he with h | h
    · exact a.trace_sub e h
    · exact Or.inr h
  canc_flag := fun h => by
    rcases b.canc_flag h with h2 | h2
    · rcases a.canc_flag h2 with h3 | h3
      · exact Or.inl h3
      · exact Or.inr (b.flag_mono h3)
    · exact Or.inr h2

theorem rec_rel_aupdate (db : List (Nat × JobRecord)) (jid : Nat) (f : JobRecord → JobRecord)
    (hf : ∀ r, (f r).startTime = r.startTime ∧ (f r).leadsFound = r.leadsFound ∧
      (f r).leadsAdded = r.leadsAdded ∧
      ((f r).status = DbStatus.completed → r.status = DbStatus.completed)) :
    ∀ rec', alookup (aupdate db jid f) jid = some rec' →
      ∃ rec, alookup db jid = some rec ∧ rec'.startTime = rec.startTime ∧
        rec'.leadsFound = rec.leadsFound ∧ rec'.leadsAdded = rec.leadsAdded ∧
        (rec'.status = DbStatus.completed → rec.status = DbStatus.completed) := by
  intro rec' h
  rw [alookup_aupdate_self] at h
  cases hdb : alookup db jid with
  | none => rw [hdb] at h; exact absurd h (by simp)
  | some rec =>
      rw [hdb] at h
      simp only [Option.map_some'] at h
      have hh : f rec = rec' := Option.some.inj h
      subst hh
      rcases hf rec with ⟨h1, h2, h3, h4⟩
      exact ⟨rec, Eq.refl _, h1, h2, h3, h4⟩

theorem phaseInv_pause (jid : Nat) (st : EngineState) :
    PhaseInv jid st (pauseScrapingJob st jid).2 := by
  unfold pauseScrapingJob
  cases hl : alookup st.activeJobs jid with
  | none => exact phaseInv_refl _ _
  | some info =>
      dsimp only
      by_cases hs : info.status = JStatus.running
      · rw [if_pos hs]
        dsimp only [dbUpdateJob]
        refine ⟨Nat.le_succ _, fun h => h, Nat.le_refl _, ?_, ?_, ?_, ?_⟩
        · intro rec h
          dsimp only
          rw [alookup_aupdate_self, h]
          exact ⟨_, Eq.refl _⟩
        · intro rec' h
          dsimp only at h
          refine rec_rel_aupdate _ _ _ ?_ rec' h
          intro r
          exact ⟨Eq.refl _, Eq.refl _, Eq.refl _, by simp⟩
        · intro e he
          dsimp only at he
          rcases List.mem_cons.mp he with h | h
          · exact Or.inr (by simp [h])
          · exact Or.inl h
        · intro h
          dsimp only at h
          rcases List.mem_cons.mp h with h | h
          · exact absurd h (by simp)
          · exact Or.inl h
      · rw [if_neg hs]
        exact phaseInv_refl _ _

theorem phaseInv_resume (jid : Nat) (st : EngineState) :
    PhaseInv jid st (resumeScrapingJob st jid).2 := by
  unfold resumeScrapingJob
  cases hl : alookup st.activeJobs jid with
  | none => exact phaseInv_refl _ _
  | some info =>
      dsimp only
      by_cases hs : info.status = JStatus.paused
      · rw [if_pos hs]
        dsimp only [dbUpdateJob]
        refine ⟨Nat.le_succ _, fun h => h, Nat.le_refl _, ?_, ?_, ?_, ?_⟩
        · intro rec h
          dsimp only
          rw [alookup_aupdate_self, h]
          exact ⟨_, Eq.refl _⟩
        · intro rec' h
          dsimp only at h
          refine rec_rel_aupdate _ _ _ ?_ rec' h
          intro r
          exact ⟨Eq.refl _, Eq.refl _, Eq.refl _, by simp⟩
        · intro e he
          dsimp only at he
          rcases List.mem_cons.mp he with h | h
          · exact Or.inr (by simp [h])
          · exact Or.inl h
        · intro h
          dsimp only at h
          rcases List.mem_cons.mp h with h | h
          · exact absurd h (by simp)
          · exact Or.inl h
      · rw [if_neg hs]
        exact phaseInv_refl _ _

theorem phaseInv_cancel (jid : Nat) (st : EngineState) :
    PhaseInv jid st (cancelScrapingJob st jid).2 := by
  unfold cancelScrapingJob
  cases hl : alookup st.activeJobs jid with
  | none => exact phaseInv_refl _ _
  | some info =>
      dsimp only [dbUpdateJob]
      refine ⟨Nat.le_succ _, fun _ => Eq.refl _, Nat.le_refl _, ?_, ?_, ?_, ?_⟩
      · intro rec h
        dsimp only
        rw [alookup_aupdate_self, h]
        exact ⟨_, Eq.refl _⟩
      · intro rec' h
        dsimp only at h
        refine rec_rel_aupdate _ _ _ ?_ rec' h
        intro r
        exact ⟨Eq.refl _, Eq.refl _, Eq.refl _, by simp⟩
      · intro e he
        dsimp only at he
        rcases List.mem_cons.mp he with h | h
        · exact Or.inr (by simp [h])
        · exact Or.inl h
      · intro _
        exact Or.inr (Eq.refl _)

theorem phaseInv_progress (jid : Nat) (st : EngineState) (p : Nat) :
    PhaseInv jid st (updateJobProgress st jid p) := by
  unfold updateJobProgress
  cases hl : alookup st.activeJobs jid with
  | none => exact phaseInv_refl _ _
  | some info =>
      dsimp only
      refine ⟨Nat.le_refl _, fun h => h, Nat.le_refl _,
        fun rec h => ⟨rec, h⟩,
        fun rec' h => ⟨rec', h, Eq.refl _, Eq.refl _, Eq.refl _, fun hc => hc⟩, ?_, ?_⟩
      · intro e he
        dsimp only at he
        rcases List.mem_cons.mp he with h | h
        · exact Or.inr (by simp [h])
        · exact Or.inl h
      · intro h
        dsimp only at h
        rcases List.mem_cons.mp h with h | h
        · exact absurd h (by simp)
        · exact Or.inl h

theorem phaseInv_applyEv (jid : Nat) (e : Ev) (st : EngineState) :
    PhaseInv jid st (applyEv jid e st) := by
  cases e with
  | tick => exact phaseInv_refl _ _
  | pauseReq => exact phaseInv_pause _ _
  | resumeReq => exact phaseInv_resume _ _
  | cancelReq => exact phaseInv_cancel _ _

theorem phaseInv_clockBump (jid : Nat) (st : EngineState) :
    PhaseInv jid st { st with clock := st.clock + 1 } :=
  { phaseInv_refl jid st with clock_le := Nat.le_succ _ }

theorem phaseInv_awaitPt (jid : Nat) (st : EngineState) (sched : List Ev) :
    PhaseInv jid st (awaitPt jid st sched).1 := by
  unfold awaitPt
  cases sched with
  | nil => exact phaseInv_clockBump _ _
  | cons e rest =>
      exact phaseInv_trans (phaseInv_clockBump jid st) (phaseInv_applyEv jid e _)

theorem dbLeads_pause (jid : Nat) (st : EngineState) :
    (pauseScrapingJob st jid).2.dbLeads = st.dbLeads := by
  unfold pauseScrapingJob
  cases hl : alookup st.activeJobs jid with
  | none => rfl
  | some info =>
      dsimp only
      by_cases hs : info.status = JStatus.running
      · rw [if_pos hs]; rfl
      · rw [if_neg hs]

theorem dbLeads_resume (jid : Nat) (st : EngineState) :
    (resumeScrapingJob st jid).2.dbLeads = st.dbLeads := by
  unfold resumeScrapingJob
  cases hl : alookup st.activeJobs jid with
  | none => rfl
  | some info =>
      dsimp only
      by_cases hs : info.status = JStatus.paused
      · rw [if_pos hs]; rfl
      · rw [if_neg hs]

theorem dbLeads_cancel (jid : Nat) (st : EngineState) :
    (cancelScrapingJob st jid).2.dbLeads = st.dbLeads := by
  unfold cancelScrapingJob
  cases hl : alookup st.activeJobs jid with
  | none => rfl
  | some info => rfl

theorem dbLeads_applyEv (jid : Nat) (e : Ev) (st : EngineState) :
    (applyEv jid e st).dbLeads = st.dbLeads := by
  cases e with
  | tick => rfl
  | pauseReq => exact dbLeads_pause _ _
  | resumeReq => exact dbLeads_resume _ _
  | cancelReq => exact dbLeads_cancel _ _

theorem dbLeads_awaitPt (jid : Nat) (st : EngineState) (sched : List Ev) :
    (awaitPt jid st sched).1.dbLeads = st.dbLeads := by
  unfold awaitPt
  cases sched with
  | nil => rfl
  | cons e rest => exact dbLeads_applyEv _ _ _

theorem dbLeads_progress (jid : Nat) (st : EngineState) (p : Nat) :
    (updateJobProgress st jid p).dbLeads = st.dbLeads := by
  unfold updateJobProgress
  cases hl : alookup st.activeJobs jid with
  | none => rfl
  | some info => rfl

theorem trace_pause (jid : Nat) (st : EngineState) :
    ∀ x ∈ (pauseScrapingJob st jid).2.trace,
      x ∈ st.trace ∨ ∃ s, x = TraceEv.jobStatusWrite s := by
  unfold pauseScrapingJob
  cases hl : alookup st.activeJobs jid with
  | none => exact fun x hx => Or.inl hx
  | some info =>
      dsimp only
      by_cases hs : info.status = JStatus.running
      · rw [if_pos hs]
        dsimp only [dbUpdateJob]
        intro x hx
        rcases List.mem_cons.mp hx with h | h
        · exact Or.inr ⟨_, h⟩
        · exact Or.inl h
      · rw [if_neg hs]
        exact fun x hx => Or.inl hx

theorem trace_resume (jid : Nat) (st : EngineState) :
    ∀ x ∈ (resumeScrapingJob st jid).2.trace,
      x ∈ st.trace ∨ ∃ s, x = TraceEv.jobStatusWrite s := by
  unfold resumeScrapingJob
  cases hl : alookup st.activeJobs jid with
  | none => exact fun x hx => Or.inl hx
  | some info =>
      dsimp only
      by_cases hs : info.status = JStatus.paused
      · rw [if_pos hs]
        dsimp only [dbUpdateJob]
        intro x hx
        rcases List.mem_cons.mp hx with h | h
        · exact Or.inr ⟨_, h⟩
        · exact Or.inl h
      · rw [if_neg hs]
        exact fun x hx => Or.inl hx

theorem trace_cancel (jid : Nat) (st : EngineState) :
    ∀ x ∈ (cancelScrapingJob st jid).2.trace,
      x ∈ st.trace ∨ ∃ s, x = TraceEv.jobStatusWrite s := by
  unfold cancelScrapingJob
  cases hl : alookup st.activeJobs jid with
  | none => exact fun x hx => Or.inl hx
  | some info =>
      dsimp only [dbUpdateJob]
      intro x hx
      rcases List.mem_cons.mp hx with h | h
      · exact Or.inr ⟨_, h⟩
      · exact Or.inl h

theorem trace_applyEv (jid : Nat) (e : Ev) (st : EngineState) :
    ∀ x ∈ (applyEv jid e st).trace,
      x ∈ st.trace ∨ ∃ s, x = TraceEv.jobStatusWrite s := by
  cases e with
  | tick => exact fun x hx => Or.inl hx
  | pauseReq => exact trace_pause _ _
  | resumeReq => exact trace_resume _ _
  | cancelReq => exact trace_cancel _ _

/-- Inside waitForResume the engine only waits: the persisted-lead count is
unchanged, every trace event added while waiting is a status write by one
of the external pause/resume/cancel operations (no lead is persisted and no
progress is reported), and the phase invariant holds. -/
theorem waitForResume_spec (jid : Nat) :
    ∀ (sched : List Ev) (st : EngineState),
      (waitForResume jid st sched).2.1.dbLeads = st.dbLeads ∧
      (∀ x ∈ (waitForResume jid st sched).2.1.trace,
        x ∈ st.trace ∨ ∃ s, x = TraceEv.jobStatusWrite s) ∧
      PhaseInv jid st (waitForResume jid st sched).2.1 := by
  intro sched
  induction sched with
  | nil =>
      intro st
      unfold waitForResume
      cases hl : alookup st.activeJobs jid with
      | none => exact ⟨Eq.refl _, fun x hx => Or.inl hx, phaseInv_refl _ _⟩
      | some info =>
          dsimp only
          by_cases hs : info.status = JStatus.paused
          · rw [if_pos hs]
            exact ⟨Eq.refl _, fun x hx => Or.inl hx, phaseInv_refl _ _⟩
          · rw [if_neg hs]
            exact ⟨Eq.refl _, fun x hx => Or.inl hx, phaseInv_refl _ _⟩
  | cons e rest ih =>
      intro st
      unfold waitForResume
      cases hl : alookup st.activeJobs jid with
      | none => exact ⟨Eq.refl _, fun x hx => Or.inl hx, phaseInv_refl _ _⟩
      | some info =>
          dsimp only
          by_cases hs : info.status = JStatus.paused
          · rw [if_pos hs]
            rcases ih (applyEv jid e { st with clock := st.clock + 1 }) with ⟨h1, h2, h3⟩
            refine ⟨?_, ?_, ?_⟩
            · rw [h1, dbLeads_applyEv]
            · intro x hx
              rcases h2 x hx with h | h
              · exact trace_applyEv jid e { st with clock := st.clock + 1 } x h
              · exact Or.inr h
            · exact phaseInv_trans (phaseInv_trans (phaseInv_clockBump jid st)
                (phaseInv_applyEv jid e _)) h3
          · rw [if_neg hs]
            exact ⟨Eq.refl _, fun x hx => Or.inl hx, phaseInv_refl _ _⟩

theorem phaseInv_persistStep (jid : Nat) (st : EngineState) (obs : Option JStatus) :
    PhaseInv jid st { st with dbLeads := st.dbLeads + 1, trace := TraceEv.persistLead obs :: st.trace } := by
  refine ⟨Nat.le_refl _, fun h => h, Nat.le_succ _,
    fun rec h => ⟨rec, h⟩,
    fun rec' h => ⟨rec', h, Eq.refl _, Eq.refl _, Eq.refl _, fun hc => hc⟩, ?_, ?_⟩
  · intro e he
    rcases List.mem_cons.mp he with h | h
    · exact Or.inr (by simp [h])
    · exact Or.inl h
  · intro h
    rcases List.mem_cons.mp h with h | h
    · exact absurd h (by simp)
    · exact Or.inl h

theorem extractLoopG_spec (jid total : Nat) (sel : Selectors) :
    ∀ (cs : List Container) (processed : Nat) (acc : List Lead)
      (st : EngineState) (sched : List Ev),
      PhaseInv jid st (extractLoopG jid total sel cs processed acc st sched).2.1 ∧
      (extractLoopG jid total sel cs processed acc st sched).2.1.dbLeads = st.dbLeads := by
  intro cs
  induction cs with
  | nil =>
      intro processed acc st sched
      exact ⟨phaseInv_refl _ _, Eq.refl _⟩
  | cons c rest ih =>
      intro processed acc st sched
      unfold extractLoopG
      rcases hA : awaitPt jid st sched with ⟨st1, sched1⟩
      have hA1 : (awaitPt jid st sched).1 = st1 := by rw [hA]
      dsimp only
      have base : PhaseInv jid st st1 ∧ st1.dbLeads = st.dbLeads := by
        constructor
        · rw [← hA1]; exact phaseInv_awaitPt _ _ _
        · rw [← hA1]; exact dbLeads_awaitPt _ _ _
      cases hl : alookup st1.activeJobs jid with
      | none => exact base
      | some info =>
          dsimp only
          by_cases hs : info.status = JStatus.paused
          · rw [if_pos hs]
            exact base
          · rw [if_neg hs]
            by_cases hnm : (match sel.companyName with
                | none => ""
                | some _ => strTrim c.nameText) = ""
            · rw [if_pos hnm]
              rcases ih processed acc st1 sched1 with ⟨p1, d1⟩
              exact ⟨phaseInv_trans base.1 p1, d1.trans base.2⟩
            · rw [if_neg hnm]
              rcases ih (processed + 1) _ (updateJobProgress st1 jid (min (30 + ((processed + 1) * 20) / total) 50)) sched1 with ⟨p1, d1⟩
              refine ⟨phaseInv_trans base.1 (phaseInv_trans (phaseInv_progress _ _ _) p1), ?_⟩
              rw [d1, dbLeads_progress, base.2]

theorem extractLoopCre_spec (jid total : Nat) (found : Bool) :
    ∀ (items : List CreItem) (processed : Nat) (acc : List Lead)
      (st : EngineState) (sched : List Ev),
      PhaseInv jid st (extractLoopCre jid total found items processed acc st sched).2.1 ∧
      (extractLoopCre jid total found items processed acc st sched).2.1.dbLeads = st.dbLeads := by
  intro items
  induction items with
  | nil =>
      intro processed acc st sched
      exact ⟨phaseInv_refl _ _, Eq.refl _⟩
  | cons it rest ih =>
      intro processed acc st sched
      unfold extractLoopCre
      rcases hA : awaitPt jid st sched with ⟨st1, sched1⟩
      have hA1 : (awaitPt jid st sched).1 = st1 := by rw [hA]
      dsimp only
      have base : PhaseInv jid st st1 ∧ st1.dbLeads = st.dbLeads := by
        constructor
        · rw [← hA1]; exact phaseInv_awaitPt _ _ _
        · rw [← hA1]; exact dbLeads_awaitPt _ _ _
      cases hl : alookup st1.activeJobs jid with
      | none => exact base
      | some info =>
          dsimp only
          by_cases hs : info.status = JStatus.paused
          · rw [if_pos hs]
            exact base
          · rw [if_neg hs]
            by_cases hnm : strTrim it.title = "" ∧ found = false
            · rw [if_pos hnm]
              rcases ih processed acc st1 sched1 with ⟨p1, d1⟩
              exact ⟨phaseInv_trans base.1 p1, d1.trans base.2⟩
            · rw [if_neg hnm]
              rcases ih (processed + 1) _ (updateJobProgress st1 jid (min (40 + ((processed + 1) * 10) / total) 50)) sched1 with ⟨p1, d1⟩
              refine ⟨phaseInv_trans base.1 (phaseInv_trans (phaseInv_progress _ _ _) p1), ?_⟩
              rw [d1, dbLeads_progress, base.2]

theorem phaseInv_traceConsSafe (jid : Nat) (st : EngineState) (e : TraceEv)
    (h1 : e ≠ TraceEv.jobStatusWrite DbStatus.completed)
    (h2 : e ≠ TraceEv.jobStatusWrite DbStatus.failed)
    (h3 : e ≠ TraceEv.jobStatusWrite DbStatus.cancelled) :
    PhaseInv jid st { st with trace := e :: st.trace } := by
  refine ⟨Nat.le_refl _, fun h => h, Nat.le_refl _,
    fun rec h => ⟨rec, h⟩,
    fun rec' h => ⟨rec', h, Eq.refl _, Eq.refl _, Eq.refl _, fun hc => hc⟩, ?_, ?_⟩
  · intro x hx
    rcases List.mem_cons.mp hx with h | h
    · subst h; exact Or.inr ⟨h1, h2⟩
    · exact Or.inl h
  · intro h
    rcases List.mem_cons.mp h with h | h
    · exact absurd h.symm h3
    · exact Or.inl h

theorem swgs_spec (env : Env) (jid : Nat) (st : EngineState) (sched : List Ev) :
    PhaseInv jid st (scrapeWithGenericSelectors env jid st sched).2.1 ∧
    (scrapeWithGenericSelectors env jid st sched).2.1.dbLeads = st.dbLeads := by
  unfold scrapeWithGenericSelectors
  rcases hA : awaitPt jid st sched with ⟨st1, sched1⟩
  have hA1 : (awaitPt jid st sched).1 = st1 := by rw [hA]
  have base1 : PhaseInv jid st st1 ∧ st1.dbLeads = st.dbLeads := by
    constructor
    · rw [← hA1]; exact phaseInv_awaitPt _ _ _
    · rw [← hA1]; exact dbLeads_awaitPt _ _ _
  dsimp only
  cases hrej : env.fetchFb.rejected with
  | some t => exact base1
  | none =>
      dsimp only
      by_cases hok : env.fetchFb.httpOk = false
      · rw [if_pos hok]; exact base1
      · rw [if_neg hok]
        rcases hB : awaitPt jid st1 sched1 with ⟨st2, sched2⟩
        have hB1 : (awaitPt jid st1 sched1).1 = st2 := by rw [hB]
        have base2 : PhaseInv jid st st2 ∧ st2.dbLeads = st.dbLeads := by
          constructor
          · refine phaseInv_trans base1.1 ?_
            rw [← hB1]; exact phaseInv_awaitPt _ _ _
          · rw [← hB1, dbLeads_awaitPt, base1.2]
        dsimp only
        have hc1 : PhaseInv jid st (updateJobProgress (updateJobProgress st2 jid 30) jid 50) :=
          phaseInv_trans base2.1 (phaseInv_trans (phaseInv_progress _ _ _) (phaseInv_progress _ _ _))
        have hc2 : (updateJobProgress (updateJobProgress st2 jid 30) jid 50).dbLeads = st.dbLeads := by
          rw [dbLeads_progress, dbLeads_progress, base2.2]
        constructor
        · split <;> split <;> exact hc1
        · split <;> split <;> exact hc2

theorem genericTry_spec (source : ScrapingSource) (env : Env) (jid : Nat)
    (st : EngineState) (sched : List Ev) :
    PhaseInv jid st (genericTry source env jid st sched).2.1 ∧
    (genericTry source env jid st sched).2.1.dbLeads = st.dbLeads := by
  unfold genericTry
  dsimp only
  generalize hA : awaitPt jid (updateJobProgress st jid 10) sched = A
  obtain ⟨st1, sched1⟩ := A
  dsimp only
  have hA1 : (awaitPt jid (updateJobProgress st jid 10) sched).1 = st1 := by rw [hA]
  have base1 : PhaseInv jid st st1 ∧ st1.dbLeads = st.dbLeads := by
    constructor
    · refine phaseInv_trans (phaseInv_progress jid st 10) ?_
      rw [← hA1]; exact phaseInv_awaitPt _ _ _
    · rw [← hA1, dbLeads_awaitPt, dbLeads_progress]
  cases hrej : env.fetchMain.rejected with
  | some t => exact base1
  | none =>
      dsimp only
      by_cases hok : env.fetchMain.httpOk = false
      · rw [if_pos hok]; exact base1
      · rw [if_neg hok]
        generalize hB : awaitPt jid st1 sched1 = B
        obtain ⟨st2, sched2⟩ := B
        dsimp only
        have hB1 : (awaitPt jid st1 sched1).1 = st2 := by rw [hB]
        have base2 : PhaseInv jid st (updateJobProgress st2 jid 20) ∧
            (updateJobProgress st2 jid 20).dbLeads = st.dbLeads := by
          constructor
          · refine phaseInv_trans base1.1 (phaseInv_trans ?_ (phaseInv_progress _ _ _))
            rw [← hB1]; exact phaseInv_awaitPt _ _ _
          · rw [dbLeads_progress, ← hB1, dbLeads_awaitPt, base1.2]
        cases hsel : source.selectors with
        | none =>
            dsimp only
            refine ⟨phaseInv_trans base2.1 (phaseInv_traceConsSafe _ _ _ ?_ ?_ ?_), base2.2⟩
              <;> simp
        | some sel =>
            dsimp only
            cases hlc : sel.leadContainer with
            | none =>
                dsimp only
                refine ⟨phaseInv_trans base2.1 (phaseInv_traceConsSafe _ _ _ ?_ ?_ ?_), base2.2⟩
                  <;> simp
            | some csel =>
                dsimp only
                generalize hE : extractLoopG jid env.containers.length sel env.containers 0 []
                    (updateJobProgress (updateJobProgress st2 jid 20) jid 30) sched2 = E
                obtain ⟨leads, st3, sched3⟩ := E
                have hE1 : (extractLoopG jid env.containers.length sel env.containers 0 []
                    (updateJobProgress (updateJobProgress st2 jid 20) jid 30) sched2).2.1 = st3 := by
                  rw [hE]
                have base3 : PhaseInv jid st st3 ∧ st3.dbLeads = st.dbLeads := by
                  constructor
                  · refine phaseInv_trans base2.1 (phaseInv_trans
                      (phaseInv_progress jid (updateJobProgress st2 jid 20) 30) ?_)
                    rw [← hE1]
                    exact (extractLoopG_spec _ _ _ _ _ _ _ _).1
                  · rw [← hE1, (extractLoopG_spec _ _ _ _ _ _ _ _).2, dbLeads_progress, base2.2]
                dsimp only
                by_cases hlen : leads.length = 0
                · rw [if_pos hlen]
                  rcases swgs_spec env jid st3 sched3 with ⟨p1, d1⟩
                  exact ⟨phaseInv_trans base3.1 p1, d1.trans base3.2⟩
                · rw [if_neg hlen]
                  exact base3

theorem scrapeGenericWebsite_spec (source : ScrapingSource) (env : Env) (jid : Nat)
    (st : EngineState) (sched : List Ev) :
    PhaseInv jid st (scrapeGenericWebsite source env jid st sched).2.1 ∧
    (scrapeGenericWebsite source env jid st sched).2.1.dbLeads = st.dbLeads := by
  unfold scrapeGenericWebsite
  rcases hG : genericTry source env jid st sched with ⟨r, st1, sched1⟩
  have hG1 : (genericTry source env jid st sched).2.1 = st1 := by rw [hG]
  have base1 : PhaseInv jid st st1 ∧ st1.dbLeads = st.dbLeads := by
    constructor
    · rw [← hG1]; exact (genericTry_spec _ _ _ _ _).1
    · rw [← hG1]; exact (genericTry_spec _ _ _ _ _).2
  cases r with
  | ok l => exact base1
  | error t =>
      dsimp only
      rcases hS : scrapeWithGenericSelectors env jid st1 sched1 with ⟨r2, st2, sched2⟩
      have hS1 : (scrapeWithGenericSelectors env jid st1 sched1).2.1 = st2 := by rw [hS]
      have base2 : PhaseInv jid st st2 ∧ st2.dbLeads = st.dbLeads := by
        constructor
        · refine phaseInv_trans base1.1 ?_
          rw [← hS1]; exact (swgs_spec _ _ _ _).1
        · rw [← hS1, (swgs_spec _ _ _ _).2, base1.2]
      cases r2 with
      | ok l => exact base2
      | error t2 => exact base2

theorem scrapeCommercialRealEstate_spec (env : Env) (jid : Nat)
    (st : EngineState) (sched : List Ev) :
    PhaseInv jid st (scrapeCommercialRealEstate env jid st sched).2.1 ∧
    (scrapeCommercialRealEstate env jid st sched).2.1.dbLeads = st.dbLeads := by
  unfold scrapeCommercialRealEstate
  dsimp only
  generalize hA : awaitPt jid (updateJobProgress st jid 10) sched = A
  obtain ⟨st1, sched1⟩ := A
  dsimp only
  have hA1 : (awaitPt jid (updateJobProgress st jid 10) sched).1 = st1 := by rw [hA]
  have base1 : PhaseInv jid st st1 ∧ st1.dbLeads = st.dbLeads := by
    constructor
    · refine phaseInv_trans (phaseInv_progress jid st 10) ?_
      rw [← hA1]; exact phaseInv_awaitPt _ _ _
    · rw [← hA1, dbLeads_awaitPt, dbLeads_progress]
  cases hrej : env.fetchCre.rejected with
  | some t => exact base1
  | none =>
      dsimp only
      by_cases hok : env.fetchCre.httpOk = false
      · rw [if_pos hok]; exact base1
      · rw [if_neg hok]
        generalize hB : awaitPt jid st1 sched1 = B
        obtain ⟨st2, sched2⟩ := B
        dsimp only
        have hB1 : (awaitPt jid st1 sched1).1 = st2 := by rw [hB]
        have base2 : PhaseInv jid st (updateJobProgress (updateJobProgress st2 jid 20) jid 30) ∧
            (updateJobProgress (updateJobProgress st2 jid 20) jid 30).dbLeads = st.dbLeads := by
          constructor
          · refine phaseInv_trans base1.1 (phaseInv_trans ?_
              (phaseInv_trans (phaseInv_progress _ _ _) (phaseInv_progress _ _ _)))
            rw [← hB1]; exact phaseInv_awaitPt _ _ _
          · rw [dbLeads_progress, dbLeads_progress, ← hB1, dbLeads_awaitPt, base1.2]
        by_cases hempty : env.creItems.length = 0
        · rw [if_pos hempty]
          exact base2
        · rw [if_neg hempty]
          generalize hE : extractLoopCre jid env.creItems.length env.creFound env.creItems 0 []
              (updateJobProgress (updateJobProgress (updateJobProgress st2 jid 20) jid 30) jid 40)
              sched2 = E
          obtain ⟨leads, st3, sched3⟩ := E
          have hE1 : (extractLoopCre jid env.creItems.length env.creFound env.creItems 0 []
              (updateJobProgress (updateJobProgress (updateJobProgress st2 jid 20) jid 30) jid 40)
              sched2).2.1 = st3 := by rw [hE]
          have base3 : PhaseInv jid st st3 ∧ st3.dbLeads = st.dbLeads := by
            constructor
            · refine phaseInv_trans base2.1 (phaseInv_trans
                (phaseInv_progress jid (updateJobProgress (updateJobProgress st2 jid 20) jid 30) 40) ?_)
              rw [← hE1]
              exact (extractLoopCre_spec _ _ _ _ _ _ _ _).1
            · rw [← hE1, (extractLoopCre_spec _ _ _ _ _ _ _ _).2, dbLeads_progress, base2.2]
          constructor
          · split <;> (try split) <;> exact base3.1
          · split <;> (try split) <;> exact base3.2

theorem extractPhase_spec (source : ScrapingSource) (env : Env) (jid : Nat)
    (st : EngineState) (sched : List Ev) :
    PhaseInv jid st (extractPhase source env jid st sched).2.1 ∧
    (extractPhase source env jid st sched).2.1.dbLeads = st.dbLeads := by
  unfold extractPhase
  by_cases h : strIncludes source.name "Commercial Real Estate" = true
  · rw [if_pos h]
    exact scrapeCommercialRealEstate_spec _ _ _ _
  · rw [if_neg h]
    exact scrapeGenericWebsite_spec _ _ _ _ _

/-- The persistence loop preserves the phase invariant, and whenever it
returns a count it persisted exactly the counted leads: the returned count
exceeds the incoming one by some k, at most one per remaining lead, and the
stored lead counter grows by exactly that k. -/
theorem persistLoop_spec (jid total : Nat) (env : Env) :
    ∀ (leads : List Lead) (i saved : Nat) (st : EngineState) (sched : List Ev),
      PhaseInv jid st (persistLoop jid total env leads i saved st sched).2.1 ∧
      (∀ n, (persistLoop jid total env leads i saved st sched).1 = some n →
        ∃ k, n = saved + k ∧ k ≤ leads.length ∧
          (persistLoop jid total env leads i saved st sched).2.1.dbLeads = st.dbLeads + k) := by
  intro leads
  induction leads with
  | nil =>
      intro i saved st sched
      refine ⟨phaseInv_refl _ _, ?_⟩
      intro n hn
      exact ⟨0, by simpa [persistLoop] using hn.symm, Nat.le_refl _, Eq.refl _⟩
  | cons l rest ih =>
      intro i saved st sched
      unfold persistLoop
      by_cases hflag : st.cancelFlag
      · rw [if_pos hflag]
        refine ⟨phaseInv_refl _ _, ?_⟩
        intro n hn
        have : saved = n := Option.some.inj hn
        exact ⟨0, by omega, Nat.zero_le _, Eq.refl _⟩
      · rw [if_neg hflag]
        dsimp only
        generalize hA : awaitPt jid st sched = A
        obtain ⟨st1, sched1⟩ := A
        have hA1 : (awaitPt jid st sched).1 = st1 := by rw [hA]
        have baseInv : PhaseInv jid st st1 := by rw [← hA1]; exact phaseInv_awaitPt _ _ _
        have baseLeads : st1.dbLeads = st.dbLeads := by rw [← hA1, dbLeads_awaitPt]
        dsimp only
        by_cases hok : env.persistOk i = true
        · rw [if_pos hok]
          have stepInv : PhaseInv jid st
              (updateJobProgress
                { st1 with
                  dbLeads := st1.dbLeads + 1,
                  trace := TraceEv.persistLead ((alookup st1.activeJobs jid).map JobInfo.status) :: st1.trace }
                jid (50 + i * 50 / total)) :=
            phaseInv_trans baseInv (phaseInv_trans (phaseInv_persistStep _ _ _) (phaseInv_progress _ _ _))
          have stepLeads :
              (updateJobProgress
                { st1 with
                  dbLeads := st1.dbLeads + 1,
                  trace := TraceEv.persistLead ((alookup st1.activeJobs jid).map JobInfo.status) :: st1.trace }
                jid (50 + i * 50 / total)).dbLeads = st.dbLeads + 1 := by
            rw [dbLeads_progress]
            dsimp only
            omega
          cases hal : alookup (updateJobProgress
              { st1 with
                dbLeads := st1.dbLeads + 1,
                trace := TraceEv.persistLead ((alookup st1.activeJobs jid).map JobInfo.status) :: st1.trace }
              jid (50 + i * 50 / total)).activeJobs jid with
          | none =>
              rcases ih (i + 1) (saved + 1) _ _ with ⟨p1, c1⟩
              refine ⟨phaseInv_trans stepInv p1, ?_⟩
              intro n hn
              rcases c1 n hn with ⟨k, hk1, hk2, hk3⟩
              refine ⟨k + 1, by omega, by simpa using Nat.succ_le_succ hk2, ?_⟩
              rw [hk3, stepLeads]
              omega
          | some info =>
              dsimp only
              by_cases hs : info.status = JStatus.paused
              · rw [if_pos hs]
                generalize hW : waitForResume jid (updateJobProgress
                    { st1 with
                      dbLeads := st1.dbLeads + 1,
                      trace := TraceEv.persistLead ((alookup st1.activeJobs jid).map JobInfo.status) :: st1.trace }
                    jid (50 + i * 50 / total)) sched1 = W
                obtain ⟨r4, st4, sched4⟩ := W
                have hW1 : (waitForResume jid (updateJobProgress
                    { st1 with
                      dbLeads := st1.dbLeads + 1,
                      trace := TraceEv.persistLead ((alookup st1.activeJobs jid).map JobInfo.status) :: st1.trace }
                    jid (50 + i * 50 / total)) sched1).2.1 = st4 := by rw [hW]
                have wInv : PhaseInv jid st st4 := by
                  refine phaseInv_trans stepInv ?_
                  rw [← hW1]
                  exact (waitForResume_spec jid sched1 _).2.2
                have wLeads : st4.dbLeads = st.dbLeads + 1 := by
                  rw [← hW1, (waitForResume_spec jid sched1 _).1, stepLeads]
                cases r4 with
                | none =>
                    refine ⟨wInv, ?_⟩
                    intro n hn
                    exact absurd hn (by simp)
                | some u =>
                    dsimp only
                    by_cases hcf : st4.cancelFlag
                    · rw [if_pos hcf]
                      refine ⟨wInv, ?_⟩
                      intro n hn
                      have : saved + 1 = n := Option.some.inj hn
                      exact ⟨1, by omega, by simp, by rw [wLeads]⟩
                    · rw [if_neg hcf]
                      rcases ih (i + 1) (saved + 1) st4 sched4 with ⟨p1, c1⟩
                      refine ⟨phaseInv_trans wInv p1, ?_⟩
                      intro n hn
                      rcases c1 n hn with ⟨k, hk1, hk2, hk3⟩
                      refine ⟨k + 1, by omega, by simpa using Nat.succ_le_succ hk2, ?_⟩
                      rw [hk3, wLeads]
                      omega
              · rw [if_neg hs]
                rcases ih (i + 1) (saved + 1) _ _ with ⟨p1, c1⟩
                refine ⟨phaseInv_trans stepInv p1, ?_⟩
                intro n hn
                rcases c1 n hn with ⟨k, hk1, hk2, hk3⟩
                refine ⟨k + 1, by omega, by simpa using Nat.succ_le_succ hk2, ?_⟩
                rw [hk3, stepLeads]
                omega
        · rw [if_neg hok]
          rcases ih (i + 1) saved st1 sched1 with ⟨p1, c1⟩
          refine ⟨phaseInv_trans baseInv p1, ?_⟩
          intro n hn
          rcases c1 n hn with ⟨k, hk1, hk2, hk3⟩
          refine ⟨k, hk1, Nat.le_succ_of_le hk2, ?_⟩
          rw [hk3, baseLeads]

theorem startState_fst (source : ScrapingSource) (st0 : EngineState) :
    (startState source st0).1 = st0.nextJobId := rfl

theorem startState_lookup (source : ScrapingSource) (st0 : EngineState) :
    alookup (startState source st0).2.dbJobs st0.nextJobId =
      some { sourceId := source.id, status := DbStatus.running, startTime := st0.clock,
             endTime := none, leadsFound := 0, leadsAdded := 0, error := none } := by
  simp [startState, createScrapingJob, registerActive, alookup]

theorem startState_dbLeads (source : ScrapingSource) (st0 : EngineState) :
    (startState source st0).2.dbLeads = st0.dbLeads := rfl

theorem startState_clock (source : ScrapingSource) (st0 : EngineState) :
    (startState source st0).2.clock = st0.clock + 1 := rfl

theorem startState_flag (source : ScrapingSource) (st0 : EngineState) :
    (startState source st0).2.cancelFlag = false := rfl

/-- Through any sequence of phases respecting the invariant, a job row that
started non-completed cannot show status completed. -/
theorem no_completed_via_inv {jid : Nat} {stA stB : EngineState}
    (inv : PhaseInv jid stA stB) {rec0 : JobRecord}
    (h0 : alookup stA.dbJobs jid = some rec0)
    (hs0 : rec0.status ≠ DbStatus.completed)
    {rec : JobRecord} (hrec : alookup stB.dbJobs jid = some rec) :
    rec.status ≠ DbStatus.completed := by
  intro hc
  rcases inv.rec_rel rec hrec with ⟨r, hr, _, _, _, himp⟩
  rw [h0] at hr
  cases Option.some.inj hr
  exact hs0 (himp hc)

/-- A scheduled external operation leaves a completed row only untouched:
pause, resume and cancel overwrite the status with paused, running or
cancelled whenever they write the row at all. -/
theorem applyEv_completed_rec (jid : Nat) (e : Ev) (st : EngineState) (rec : JobRecord)
    (h : alookup (applyEv jid e st).dbJobs jid = some rec)
    (hc : rec.status = DbStatus.completed) :
    alookup st.dbJobs jid = some rec := by
  cases e with
  | tick => exact h
  | pauseReq =>
      unfold applyEv pauseScrapingJob at h
      cases hl : alookup st.activeJobs jid with
      | none =>
          rw [hl] at h
          exact h
      | some info =>
          rw [hl] at h
          dsimp only at h
          by_cases hs : info.status = JStatus.running
          · rw [if_pos hs] at h
            dsimp only [dbUpdateJob] at h
            rw [alookup_aupdate_self] at h
            rcases Option.map_eq_some'.mp h with ⟨r0, hr0, hfr⟩
            rw [← hfr] at hc
            exact absurd hc (by simp)
          · rw [if_neg hs] at h
            exact h
  | resumeReq =>
      unfold applyEv resumeScrapingJob at h
      cases hl : alookup st.activeJobs jid with
      | none =>
          rw [hl] at h
          exact h
      | some info =>
          rw [hl] at h
          dsimp only at h
          by_cases hs : info.status = JStatus.paused
          · rw [if_pos hs] at h
            dsimp only [dbUpdateJob] at h
            rw [alookup_aupdate_self] at h
            rcases Option.map_eq_some'.mp h with ⟨r0, hr0, hfr⟩
            rw [← hfr] at hc
            exact absurd hc (by simp)
          · rw [if_neg hs] at h
            exact h
  | cancelReq =>
      unfold applyEv cancelScrapingJob at h
      cases hl : alookup st.activeJobs jid with
      | none =>
          rw [hl] at h
          exact h
      | some info =>
          rw [hl] at h
          dsimp only [dbUpdateJob] at h
          rw [alookup_aupdate_self] at h
          rcases Option.map_eq_some'.mp h with ⟨r0, hr0, hfr⟩
          rw [← hfr] at hc
          exact absurd hc (by simp)

/-- Lifting of applyEv_completed_rec through one suspension point. -/
theorem awaitPt_completed_rec (jid : Nat) (st : EngineState) (sched : List Ev)
    (rec : JobRecord)
    (h : alookup (awaitPt jid st sched).1.dbJobs jid = some rec)
    (hc : rec.status = DbStatus.completed) :
    alookup st.dbJobs jid = some rec := by
  unfold awaitPt at h
  cases sched with
  | nil => exact h
  | cons e rest =>
      dsimp only at h
      exact applyEv_completed_rec jid e { st with clock := st.clock + 1 } rec h hc

/-- A cancelled status write added by one scheduled external operation
comes with the row itself being written to status cancelled. -/
theorem applyEv_canc_row (jid : Nat) (e : Ev) (st : EngineState)
    (h : TraceEv.jobStatusWrite DbStatus.cancelled ∈ (applyEv jid e st).trace) :
    TraceEv.jobStatusWrite DbStatus.cancelled ∈ st.trace ∨
    ∀ rec, alookup (applyEv jid e st).dbJobs jid = some rec →
      rec.status = DbStatus.cancelled := by
  cases e with
  | tick => exact Or.inl h
  | pauseReq =>
      unfold applyEv pauseScrapingJob at h
      cases hl : alookup st.activeJobs jid with
      | none =>
          rw [hl] at h
          exact Or.inl h
      | some info =>
          rw [hl] at h
          dsimp only at h
          by_cases hs : info.status = JStatus.running
          · rw [if_pos hs] at h
            dsimp only [dbUpdateJob] at h
            rcases List.mem_cons.mp h with h1 | h1
            · exact absurd h1 (by simp)
            · exact Or.inl h1
          · rw [if_neg hs] at h
            exact Or.inl h
  | resumeReq =>
      unfold applyEv resumeScrapingJob at h
      cases hl : alookup st.activeJobs jid with
      | none =>
          rw [hl] at h
          exact Or.inl h
      | some info =>
          rw [hl] at h
          dsimp only at h
          by_cases hs : info.status = JStatus.paused
          · rw [if_pos hs] at h
            dsimp only [dbUpdateJob] at h
            rcases List.mem_cons.mp h with h1 | h1
            · exact absurd h1 (by simp)
            · exact Or.inl h1
          · rw [if_neg hs] at h
            exact Or.inl h
  | cancelReq =>
      cases hl : alookup st.activeJobs jid with
      | none =>
          unfold applyEv cancelScrapingJob at h
          rw [hl] at h
          exact Or.inl h
      | some info =>
          refine Or.inr ?_
          intro rec hr
          unfold applyEv cancelScrapingJob at hr
          rw [hl] at hr
          dsimp only [dbUpdateJob] at hr
          rw [alookup_aupdate_self] at hr
          rcases Option.map_eq_some'.mp hr with ⟨r0, hr0, hfr⟩
          rw [← hfr]

/-- Lifting of applyEv_canc_row through one suspension point. -/
theorem awaitPt_canc_row (jid : Nat) (st : EngineState) (sched : List Ev)
    (h : TraceEv.jobStatusWrite DbStatus.cancelled ∈ (awaitPt jid st sched).1.trace) :
    TraceEv.jobStatusWrite DbStatus.cancelled ∈ st.trace ∨
    ∀ rec, alookup (awaitPt jid st sched).1.dbJobs jid = some rec →
      rec.status = DbStatus.cancelled := by
  unfold awaitPt at h ⊢
  cases sched with
  | nil => exact Or.inl h
  | cons e rest =>
      dsimp only at h ⊢
      exact applyEv_canc_row jid e { st with clock := st.clock + 1 } h

/-- External operations only prepend to the trace. -/
theorem trace_mem_applyEv (jid : Nat) (e : Ev) (st : EngineState) (x : TraceEv)
    (h : x ∈ st.trace) : x ∈ (applyEv jid e st).trace := by
  cases e with
  | tick => exact h
  | pauseReq =>
      unfold applyEv pauseScrapingJob
      cases hl : alookup st.activeJobs jid with
      | none => exact h
      | some info =>
          dsimp only
          by_cases hs : info.status = JStatus.running
          · rw [if_pos hs]
            exact List.mem_cons_of_mem _ h
          · rw [if_neg hs]
            exact h
  | resumeReq =>
      unfold applyEv resumeScrapingJob
      cases hl : alookup st.activeJobs jid with
      | none => exact h
      | some info =>
          dsimp only
          by_cases hs : info.status = JStatus.paused
          · rw [if_pos hs]
            exact List.mem_cons_of_mem _ h
          · rw [if_neg hs]
            exact h
  | cancelReq =>
      unfold applyEv cancelScrapingJob
      cases hl : alookup st.activeJobs jid with
      | none => exact h
      | some info =>
          dsimp only [dbUpdateJob]
          exact List.mem_cons_of_mem _ h

theorem awaitPt_trace_mem (jid : Nat) (st : EngineState) (sched : List Ev)
    (x : TraceEv) (h : x ∈ st.trace) : x ∈ (awaitPt jid st sched).1.trace := by
  unfold awaitPt
  cases sched with
  | nil => exact h
  | cons e rest =>
      dsimp only
      exact trace_mem_applyEv jid e { st with clock := st.clock + 1 } x h

/-- An external operation keeps a present row present, never touches its
error field, and never unsets an endTime that is already set. -/
theorem applyEv_row_err (jid : Nat) (e : Ev) (st : EngineState) (rec : JobRecord)
    (h : alookup st.dbJobs jid = some rec) :
    ∃ rec2, alookup (applyEv jid e st).dbJobs jid = some rec2 ∧
      rec2.error = rec.error ∧
      ((∃ u, rec.endTime = some u) → ∃ u, rec2.endTime = some u) := by
  cases e with
  | tick => exact ⟨rec, h, rfl, fun hu => hu⟩
  | pauseReq =>
      unfold applyEv pauseScrapingJob
      cases hl : alookup st.activeJobs jid with
      | none => exact ⟨rec, h, rfl, fun hu => hu⟩
      | some info =>
          dsimp only
          by_cases hs : info.status = JStatus.running
          · rw [if_pos hs]
            dsimp only [dbUpdateJob]
            refine ⟨{ rec with status := DbStatus.paused }, ?_, rfl, fun hu => hu⟩
            rw [alookup_aupdate_self, h]
            rfl
          · rw [if_neg hs]
            exact ⟨rec, h, rfl, fun hu => hu⟩
  | resumeReq =>
      unfold applyEv resumeScrapingJob
      cases hl : alookup st.activeJobs jid with
      | none => exact ⟨rec, h, rfl, fun hu => hu⟩
      | some info =>
          dsimp only
          by_cases hs : info.status = JStatus.paused
          · rw [if_pos hs]
            dsimp only [dbUpdateJob]
            refine ⟨{ rec with status := DbStatus.running }, ?_, rfl, fun hu => hu⟩
            rw [alookup_aupdate_self, h]
            rfl
          · rw [if_neg hs]
            exact ⟨rec, h, rfl, fun hu => hu⟩
  | cancelReq =>
      unfold applyEv cancelScrapingJob
      cases hl : alookup st.activeJobs jid with
      | none => exact ⟨rec, h, rfl, fun hu => hu⟩
      | some info =>
          dsimp only [dbUpdateJob]
          refine ⟨{ rec with status := DbStatus.cancelled, endTime := some st.clock }, ?_, rfl,
            fun _ => ⟨st.clock, rfl⟩⟩
          rw [alookup_aupdate_self, h]
          rfl

/-- Lifting of applyEv_row_err through one suspension point. -/
theorem awaitPt_row_err (jid : Nat) (st : EngineState) (sched : List Ev) (rec : JobRecord)
    (h : alookup st.dbJobs jid = some rec) :
    ∃ rec2, alookup (awaitPt jid st sched).1.dbJobs jid = some rec2 ∧
      rec2.error = rec.error ∧
      ((∃ u, rec.endTime = some u) → ∃ u, rec2.endTime = some u) := by
  unfold awaitPt
  cases sched with
  | nil => exact ⟨rec, h, rfl, fun hu => hu⟩
  | cons e rest =>
      dsimp only
      exact applyEv_row_err jid e { st with clock := st.clock + 1 } rec h

/-- Claim C2: every run of scrapeSource whose job row ends with status
completed satisfies the completion invariants: leadsAdded is between 0 and
leadsFound, leadsFound is the number of records the extraction phase
returned, leadsAdded is exactly the number of leads persisted into the
store by the run, and endTime is set and not before startTime. -/
theorem c2_completed_job_invariants
    (source : ScrapingSource) (env : Env) (sched : List Ev) (st0 : EngineState)
    (hwf : WF st0) (res : RunResult) (stF : EngineState)
    (hrun : scrapeSource source env sched st0 = (res, stF))
    (rec : JobRecord) (hrec : alookup stF.dbJobs st0.nextJobId = some rec)
    (hc : rec.status = DbStatus.completed) :
    0 ≤ rec.leadsAdded ∧ rec.leadsAdded ≤ rec.leadsFound ∧
    (∃ L, (extractPhase source env st0.nextJobId (startState source st0).2 sched).1 =
        Except.ok L ∧ rec.leadsFound = L.length) ∧
    stF.dbLeads = st0.dbLeads + rec.leadsAdded ∧
    (∃ t, rec.endTime = some t ∧ rec.startTime ≤ t) := by
  unfold scrapeSource at hrun
  by_cases h0 : isScrapingRunning st0 source.id = true
  · rw [if_pos h0] at hrun
    obtain ⟨h1, h2⟩ := Prod.mk.inj hrun
    subst h2
    rw [alookup_fresh st0.dbJobs st0.nextJobId hwf.1] at hrec
    exact absurd hrec (by simp)
  · rw [if_neg h0] at hrun
    dsimp only at hrun
    rw [startState_fst] at hrun
    have hcre : alookup (startState source st0).2.dbJobs st0.nextJobId =
        some { sourceId := source.id, status := DbStatus.running, startTime := st0.clock,
               endTime := none, leadsFound := 0, leadsAdded := 0, error := none } :=
      startState_lookup source st0
    generalize hX : extractPhase source env st0.nextJobId (startState source st0).2 sched = X at hrun ⊢
    obtain ⟨exr, st2, sched2⟩ := X
    have hXinv : PhaseInv st0.nextJobId (startState source st0).2 st2 := by
      have := (extractPhase_spec source env st0.nextJobId (startState source st0).2 sched).1
      rw [hX] at this
      exact this
    have hXleads : st2.dbLeads = st0.dbLeads := by
      have := (extractPhase_spec source env st0.nextJobId (startState source st0).2 sched).2
      rw [hX] at this
      simpa [startState_dbLeads] using this
    cases exr with
    | error t =>
        cases t with
        | errObj m =>
            dsimp only [dbUpdateJob] at hrun
            obtain ⟨h1, h2⟩ := Prod.mk.inj hrun
            subst h2
            dsimp only at hrec
            have hrecW := awaitPt_completed_rec st0.nextJobId _ sched2 rec hrec hc
            dsimp only at hrecW
            rw [alookup_aupdate_self] at hrecW
            rcases Option.map_eq_some'.mp hrecW with ⟨r2, hr2, hfr⟩
            rw [← hfr] at hc
            exact absurd hc (by simp)
        | nonErr =>
            dsimp only at hrun
            obtain ⟨h1, h2⟩ := Prod.mk.inj hrun
            subst h2
            dsimp only at hrec
            exact absurd hc (no_completed_via_inv hXinv hcre (by simp) hrec)
    | ok leads =>
        dsimp only at hrun
        by_cases hf2 : st2.cancelFlag = true
        · rw [if_pos hf2] at hrun
          obtain ⟨h1, h2⟩ := Prod.mk.inj hrun
          subst h2
          exact absurd hc (no_completed_via_inv hXinv hcre (by simp) hrec)
        · rw [if_neg hf2] at hrun
          generalize hP : persistLoop st0.nextJobId leads.length env leads 0 0
              (updateJobProgress st2 st0.nextJobId 50) sched2 = P at hrun
          obtain ⟨r, st4, sched4⟩ := P
          have hPinv : PhaseInv st0.nextJobId (updateJobProgress st2 st0.nextJobId 50) st4 := by
            have := (persistLoop_spec st0.nextJobId leads.length env leads 0 0
              (updateJobProgress st2 st0.nextJobId 50) sched2).1
            rw [hP] at this
            exact this
          have hChain : PhaseInv st0.nextJobId (startState source st0).2 st4 :=
            phaseInv_trans hXinv (phaseInv_trans (phaseInv_progress _ _ _) hPinv)
          cases r with
          | none =>
              dsimp only at hrun
              obtain ⟨h1, h2⟩ := Prod.mk.inj hrun
              subst h2
              exact absurd hc (no_completed_via_inv hChain hcre (by simp) hrec)
          | some saved =>
              dsimp only at hrun
              by_cases hf4 : st4.cancelFlag = true
              · rw [if_pos hf4] at hrun
                obtain ⟨h1, h2⟩ := Prod.mk.inj hrun
                subst h2
                dsimp only at hrec
                exact absurd hc (no_completed_via_inv hChain hcre (by simp) hrec)
              · rw [if_neg hf4] at hrun
                generalize hA : awaitPt st0.nextJobId (dbUpdateJob st4 st0.nextJobId
                    (fun r => { r with
                                  status := DbStatus.completed
                                  endTime := some st4.clock
                                  leadsFound := leads.length
                                  leadsAdded := saved })
                    DbStatus.completed) sched4 = A at hrun
                obtain ⟨st5, sched5⟩ := A
                dsimp only at hrun
                generalize hB : awaitPt st0.nextJobId
                    { st5 with lastScraped := some st5.clock, clock := st5.clock + 1 } sched5 =
                    B at hrun
                obtain ⟨st6, sched6⟩ := B
                dsimp only at hrun
                obtain ⟨h1, h2⟩ := Prod.mk.inj hrun
                subst h2
                dsimp only at hrec
                have hA1 : (awaitPt st0.nextJobId (dbUpdateJob st4 st0.nextJobId
                    (fun r => { r with
                                  status := DbStatus.completed
                                  endTime := some st4.clock
                                  leadsFound := leads.length
                                  leadsAdded := saved })
                    DbStatus.completed) sched4).1 = st5 := congrArg Prod.fst hA
                have hB1 : (awaitPt st0.nextJobId
                    { st5 with lastScraped := some st5.clock, clock := st5.clock + 1 }
                    sched5).1 = st6 := congrArg Prod.fst hB
                have hrec5 : alookup st5.dbJobs st0.nextJobId = some rec :=
                  awaitPt_completed_rec st0.nextJobId
                    { st5 with lastScraped := some st5.clock, clock := st5.clock + 1 } sched5 rec
                    (by rw [hB1]; exact hrec) hc
                have hrecW := awaitPt_completed_rec st0.nextJobId (dbUpdateJob st4 st0.nextJobId
                    (fun r => { r with
                                  status := DbStatus.completed
                                  endTime := some st4.clock
                                  leadsFound := leads.length
                                  leadsAdded := saved })
                    DbStatus.completed) sched4 rec (by rw [hA1]; exact hrec5) hc
                dsimp only [dbUpdateJob] at hrecW
                rw [alookup_aupdate_self] at hrecW
                rcases Option.map_eq_some'.mp hrecW with ⟨r4, hr4, hfr⟩
                have hdb6 : st6.dbLeads = st4.dbLeads := by
                  rw [← hB1, dbLeads_awaitPt]
                  dsimp only
                  rw [← hA1, dbLeads_awaitPt]
                  rfl
                rcases (persistLoop_spec st0.nextJobId leads.length env leads 0 0
                    (updateJobProgress st2 st0.nextJobId 50) sched2).2 saved
                    (by rw [hP]) with ⟨k, hk1, hk2, hk3⟩
                rw [hP] at hk3
                dsimp only at hk3
                rw [dbLeads_progress] at hk3
                have hsaved : saved = k := by omega
                rcases hChain.rec_rel r4 hr4 with ⟨rc, hrc, hst, _, _, _⟩
                rw [hcre] at hrc
                cases Option.some.inj hrc
                refine ⟨Nat.zero_le _, ?_, ⟨leads, Eq.refl _, ?_⟩, ?_, ?_⟩
                · rw [← hfr]
                  dsimp only
                  omega
                · rw [← hfr]
                · rw [← hfr]
                  dsimp only
                  rw [hdb6, hk3, hXleads]
                  omega
                · refine ⟨st4.clock, ?_, ?_⟩
                  · rw [← hfr]
                  · rw [← hfr]
                    dsimp only
                    rw [hst]
                    dsimp only
                    have c1 : (startState source st0).2.clock ≤ st4.clock := hChain.clock_le
                    rw [startState_clock] at c1
                    omega

/-- A schedule with no external operations. -/
def AllTick (sched : List Ev) : Prop := ∀ e ∈ sched, e = Ev.tick

theorem allTick_nil : AllTick [] := fun e he => absurd he (List.not_mem_nil e)

theorem allTick_replicate (n : Nat) : AllTick (List.replicate n Ev.tick) := by
  intro e he
  exact List.eq_of_mem_replicate he

theorem awaitPt_allTick (jid : Nat) (st : EngineState) (sched : List Ev)
    (h : AllTick sched) :
    (awaitPt jid st sched).1 = { st with clock := st.clock + 1 } ∧
    AllTick (awaitPt jid st sched).2 := by
  cases sched with
  | nil => exact ⟨rfl, allTick_nil⟩
  | cons e rest =>
      have he : e = Ev.tick := h e (List.mem_cons_self _ _)
      subst he
      exact ⟨rfl, fun x hx => h x (List.mem_cons_of_mem _ hx)⟩

theorem awaitPt_allTick_dbJobs (jid : Nat) (st : EngineState) (sched : List Ev)
    (h : AllTick sched) : (awaitPt jid st sched).1.dbJobs = st.dbJobs := by
  rw [(awaitPt_allTick jid st sched h).1]

theorem dbJobs_progress (st : EngineState) (jid : Nat) (p : Nat) :
    (updateJobProgress st jid p).dbJobs = st.dbJobs := by
  unfold updateJobProgress
  cases hl : alookup st.activeJobs jid with
  | none => rfl
  | some info => rfl

theorem flag_progress (st : EngineState) (jid : Nat) (p : Nat) :
    (updateJobProgress st jid p).cancelFlag = st.cancelFlag := by
  unfold updateJobProgress
  cases hl : alookup st.activeJobs jid with
  | none => rfl
  | some info => rfl

theorem status_progress (st : EngineState) (jid : Nat) (p : Nat) :
    (alookup (updateJobProgress st jid p).activeJobs jid).map JobInfo.status =
      (alookup st.activeJobs jid).map JobInfo.status := by
  unfold updateJobProgress
  cases hl : alookup st.activeJobs jid with
  | none => rw [hl]
  | some info =>
      dsimp only
      rw [alookup_aupdate_self, hl]
      rfl

/-- The collected-leads list of the configured extraction loop when it
never observes a pause and runs off the whole container list. -/
theorem extractLoopG_allTick (jid total : Nat) (sel : Selectors) :
    ∀ (cs : List Container) (processed : Nat) (acc : List Lead)
      (st : EngineState) (sched : List Ev),
      AllTick sched →
      (alookup st.activeJobs jid).map JobInfo.status = some JStatus.running →
      (extractLoopG jid total sel cs processed acc st sched).1 = acc.reverse ++ collectG sel cs ∧
      (extractLoopG jid total sel cs processed acc st sched).2.1.dbJobs = st.dbJobs ∧
      (extractLoopG jid total sel cs processed acc st sched).2.1.dbLeads = st.dbLeads ∧
      (extractLoopG jid total sel cs processed acc st sched).2.1.cancelFlag = st.cancelFlag ∧
      (alookup (extractLoopG jid total sel cs processed acc st sched).2.1.activeJobs jid).map
        JobInfo.status = some JStatus.running ∧
      AllTick (extractLoopG jid total sel cs processed acc st sched).2.2 := by
  intro cs
  induction cs with
  | nil =>
      intro processed acc st sched hall hst
      refine ⟨?_, rfl, rfl, rfl, hst, hall⟩
      simp [extractLoopG, collectG]
  | cons c rest ih =>
      intro processed acc st sched hall hst
      unfold extractLoopG
      rcases awaitPt_allTick jid st sched hall with ⟨hA, hAall⟩
      generalize hAB : awaitPt jid st sched = A at hA hAall
      obtain ⟨st1, sched1⟩ := A
      dsimp only at hA hAall ⊢
      subst hA
      cases hl : alookup st.activeJobs jid with
      | none => rw [hl] at hst; exact absurd hst (by simp)
      | some info =>
          have hinfo : info.status = JStatus.running := by
            rw [hl] at hst
            simpa using hst
          dsimp only
          rw [if_neg (by rw [hinfo]; exact fun h => JStatus.noConfusion h)]
          by_cases hnm : (match sel.companyName with
              | none => ""
              | some _ => strTrim c.nameText) = ""
          · rw [if_pos hnm]
            rcases ih processed acc { st with clock := st.clock + 1 } sched1 hAall (by simpa [hl]) with
              ⟨r1, r2, r3, r4, r5, r6⟩
            refine ⟨?_, r2, r3, r4, r5, r6⟩
            rw [r1]
            have : collectG sel (c :: rest) = collectG sel rest := by
              simp [collectG, List.filterMap_cons, hnm]
            rw [this]
          · rw [if_neg hnm]
            have hstat : (alookup (updateJobProgress { st with clock := st.clock + 1 } jid
                (min (30 + (processed + 1) * 20 / total) 50)).activeJobs jid).map JobInfo.status =
                some JStatus.running := by
              rw [status_progress]
              simpa [hl]
            rcases ih (processed + 1) _ (updateJobProgress { st with clock := st.clock + 1 } jid
                (min (30 + (processed + 1) * 20 / total) 50)) sched1 hAall hstat with
              ⟨r1, r2, r3, r4, r5, r6⟩
            refine ⟨?_, ?_, ?_, ?_, r5, r6⟩
            · rw [r1]
              have : collectG sel (c :: rest) =
                  ({ companyName := (match sel.companyName with
                      | none => ""
                      | some _ => strTrim c.nameText) } : Lead) :: collectG sel rest := by
                simp [collectG, List.filterMap_cons, hnm]
              rw [this]
              simp
            · rw [r2, dbJobs_progress]
            · rw [r3, dbLeads_progress]
            · rw [r4, flag_progress]

theorem updateJobProgress_absent (st : EngineState) (jid : Nat) (p : Nat)
    (h : alookup st.activeJobs jid = none) : updateJobProgress st jid p = st := by
  unfold updateJobProgress
  rw [h]

theorem updateJobProgress_entry (st : EngineState) (jid : Nat) (p : Nat)
    (info : JobInfo) (h : alookup st.activeJobs jid = some info) :
    alookup (updateJobProgress st jid p).activeJobs jid = some { info with progress := p } := by
  unfold updateJobProgress
  rw [h]
  dsimp only
  rw [alookup_aupdate_self, h]
  rfl

/-- Number of successful createLead calls among n attempts starting at
index i. -/
def okCount (env : Env) : Nat → Nat → Nat
  | _, 0 => 0
  | i, n + 1 => (if env.persistOk i then 1 else 0) + okCount env (i + 1) n

theorem okCount_allTrue (env : Env) (h : ∀ j, env.persistOk j = true) :
    ∀ n i, okCount env i n = n := by
  intro n
  induction n with
  | zero => intro i; rfl
  | succ m ih =>
      intro i
      simp only [okCount, h i, if_true, ih (i + 1)]
      omega

/-- The persistence loop under a schedule with no external operations and a
running entry: no pause blocks it, it returns the incoming count plus one
per successful createLead, the store rows are untouched and the lead
counter grows by exactly the successes. -/
theorem persistLoop_allTick (jid total : Nat) (env : Env) :
    ∀ (leads : List Lead) (i saved : Nat) (st : EngineState) (sched : List Ev),
      AllTick sched →
      st.cancelFlag = false →
      (alookup st.activeJobs jid).map JobInfo.status = some JStatus.running →
      (persistLoop jid total env leads i saved st sched).1 =
        some (saved + okCount env i leads.length) ∧
      (persistLoop jid total env leads i saved st sched).2.1.dbJobs = st.dbJobs ∧
      (persistLoop jid total env leads i saved st sched).2.1.dbLeads =
        st.dbLeads + okCount env i leads.length ∧
      (persistLoop jid total env leads i saved st sched).2.1.cancelFlag = false ∧
      (alookup (persistLoop jid total env leads i saved st sched).2.1.activeJobs jid).map
        JobInfo.status = some JStatus.running ∧
      AllTick (persistLoop jid total env leads i saved st sched).2.2 := by
  intro leads
  induction leads with
  | nil =>
      intro i saved st sched hall hfl hst
      refine ⟨?_, rfl, ?_, hfl, hst, hall⟩
      · simp [persistLoop, okCount]
      · simp [persistLoop, okCount]
  | cons l rest ih =>
      intro i saved st sched hall hfl hst
      unfold persistLoop
      rw [if_neg (by simp [hfl])]
      rcases awaitPt_allTick jid st sched hall with ⟨hA, hAall⟩
      generalize hAB : awaitPt jid st sched = A at hA hAall
      obtain ⟨st1, sched1⟩ := A
      dsimp only at hA hAall ⊢
      subst hA
      by_cases hok : env.persistOk i = true
      · rw [if_pos hok]
        dsimp only
        have hcnt : okCount env i (rest.length + 1) = 1 + okCount env (i + 1) rest.length := by
          simp [okCount, hok]
        split
        · next x info2 heq =>
            have hs2 : (some info2).map JobInfo.status = some JStatus.running := by
              rw [← heq, status_progress]
              exact hst
            have hs2b : info2.status = JStatus.running := by simpa using hs2
            rw [if_neg (by rw [hs2b]; exact fun h => JStatus.noConfusion h)]
            rcases ih (i + 1) (saved + 1)
                (updateJobProgress
                  { st with
                    dbLeads := st.dbLeads + 1,
                    clock := st.clock + 1,
                    trace := TraceEv.persistLead ((alookup st.activeJobs jid).map JobInfo.status) :: st.trace }
                  jid (50 + i * 50 / total)) sched1 hAall
                (by rw [flag_progress]; exact hfl)
                (by rw [status_progress]; exact hst) with ⟨r1, r2, r3, r4, r5, r6⟩
            refine ⟨?_, ?_, ?_, r4, r5, r6⟩
            · rw [r1]
              simp only [List.length_cons, hcnt]
              congr 1
              omega
            · rw [r2, dbJobs_progress]
            · rw [r3, dbLeads_progress]
              dsimp only
              simp only [List.length_cons, hcnt]
              omega
        · next x heq =>
            have hs2 : (alookup (updateJobProgress
                { st with
                  dbLeads := st.dbLeads + 1,
                  clock := st.clock + 1,
                  trace := TraceEv.persistLead ((alookup st.activeJobs jid).map JobInfo.status) :: st.trace }
                jid (50 + i * 50 / total)).activeJobs jid).map JobInfo.status =
                some JStatus.running := by
              rw [status_progress]
              exact hst
            rw [heq] at hs2
            exact absurd hs2 (by simp)
      · rw [if_neg hok]
        have hcnt : okCount env i (rest.length + 1) = 0 + okCount env (i + 1) rest.length := by
          simp [okCount, hok]
        rcases ih (i + 1) saved { st with clock := st.clock + 1 } sched1 hAall hfl hst with
          ⟨r1, r2, r3, r4, r5, r6⟩
        refine ⟨?_, r2, ?_, r4, r5, r6⟩
        · rw [r1]
          simp only [List.length_cons, hcnt]
          congr 1
          omega
        · rw [r3]
          dsimp only
          simp only [List.length_cons, hcnt]
          omega

/-- The leads list of the generic fallback extractor as pure data. -/
def fallbackList (env : Env) : List Lead :=
  (if env.cards.length = 0 then
    env.headings.filterMap fun h =>
      let t := strTrim h
      if 3 < t.length then some { companyName := t } else none
  else []) ++
  env.cards.filterMap fun c =>
    let t := strTrim c.title
    if t = "" then none else some { companyName := t }

theorem fallbackLeads_ok (env : Env) (hrej : env.fetchFb.rejected = none)
    (hok : env.fetchFb.httpOk = true) (hne : fallbackList env ≠ []) :
    fallbackLeads env = Except.ok (fallbackList env) := by
  unfold fallbackLeads fallbackList at *
  rw [hrej]
  dsimp only
  rw [if_neg (by rw [hok]; exact fun h => Bool.noConfusion h)]
  rw [if_neg (by simpa [List.length_eq_zero] using hne)]

/-- The result value of scrapeWithGenericSelectors depends only on the
fetched page, not on the tracker state or the schedule: neither of its
collection loops consults the job status. -/
theorem swgs_result (env : Env) (jid : Nat) (st : EngineState) (sched : List Ev) :
    (scrapeWithGenericSelectors env jid st sched).1 =
      match fallbackLeads env with
      | Except.error t => Except.error t
      | Except.ok l => Except.ok l := by
  unfold scrapeWithGenericSelectors fallbackLeads
  generalize awaitPt jid st sched = A
  obtain ⟨st1, sched1⟩ := A
  dsimp only
  cases hrej : env.fetchFb.rejected with
  | some t => rfl
  | none =>
      dsimp only
      by_cases hok : env.fetchFb.httpOk = false
      · simp [hok]
      · rw [if_neg hok]
        generalize awaitPt jid st1 sched1 = B
        obtain ⟨st2, sched2⟩ := B
        dsimp only
        split_ifs <;> rfl

theorem swgs_state_allTick (env : Env) (jid : Nat) (st : EngineState) (sched : List Ev)
    (hall : AllTick sched) :
    (scrapeWithGenericSelectors env jid st sched).2.1.dbJobs = st.dbJobs ∧
    (scrapeWithGenericSelectors env jid st sched).2.1.dbLeads = st.dbLeads ∧
    (scrapeWithGenericSelectors env jid st sched).2.1.cancelFlag = st.cancelFlag ∧
    (alookup (scrapeWithGenericSelectors env jid st sched).2.1.activeJobs jid).map JobInfo.status =
      (alookup st.activeJobs jid).map JobInfo.status ∧
    AllTick (scrapeWithGenericSelectors env jid st sched).2.2 := by
  unfold scrapeWithGenericSelectors
  rcases awaitPt_allTick jid st sched hall with ⟨hA, hAall⟩
  generalize hAB : awaitPt jid st sched = A at hA hAall
  obtain ⟨st1, sched1⟩ := A
  dsimp only at hA hAall ⊢
  subst hA
  cases hrej : env.fetchFb.rejected with
  | some t => exact ⟨rfl, rfl, rfl, rfl, hAall⟩
  | none =>
      dsimp only
      by_cases hok : env.fetchFb.httpOk = false
      · rw [if_pos hok]
        exact ⟨rfl, rfl, rfl, rfl, hAall⟩
      · rw [if_neg hok]
        rcases awaitPt_allTick jid { st with clock := st.clock + 1 } sched1 hAall with ⟨hB, hBall⟩
        generalize hBB : awaitPt jid { st with clock := st.clock + 1 } sched1 = B at hB hBall
        obtain ⟨st2, sched2⟩ := B
        dsimp only at hB hBall ⊢
        subst hB
        have d1 : ∀ q p, (updateJobProgress (updateJobProgress
            { st with clock := st.clock + 1 + 1 } jid q) jid p).dbJobs = st.dbJobs := by
          intro q p
          rw [dbJobs_progress, dbJobs_progress]
        have d2 : ∀ q p, (updateJobProgress (updateJobProgress
            { st with clock := st.clock + 1 + 1 } jid q) jid p).dbLeads = st.dbLeads := by
          intro q p
          rw [dbLeads_progress, dbLeads_progress]
        have d3 : ∀ q p, (updateJobProgress (updateJobProgress
            { st with clock := st.clock + 1 + 1 } jid q) jid p).cancelFlag = st.cancelFlag := by
          intro q p
          rw [flag_progress, flag_progress]
        have d4 : ∀ q p, (alookup (updateJobProgress (updateJobProgress
            { st with clock := st.clock + 1 + 1 } jid q) jid p).activeJobs jid).map JobInfo.status =
            (alookup st.activeJobs jid).map JobInfo.status := by
          intro q p
          rw [status_progress, status_progress]
        refine ⟨?_, ?_, ?_, ?_, ?_⟩ <;> split_ifs <;>
          first
            | exact d1 _ _
            | exact d2 _ _
            | exact d3 _ _
            | exact d4 _ _
            | exact hBall

theorem sgw_ok (source : ScrapingSource) (env : Env) (jid : Nat)
    (st : EngineState) (sched : List Ev) (l : List Lead)
    (h : (genericTry source env jid st sched).1 = Except.ok l) :
    (scrapeGenericWebsite source env jid st sched).1 = Except.ok l ∧
    (scrapeGenericWebsite source env jid st sched).2 = (genericTry source env jid st sched).2 := by
  unfold scrapeGenericWebsite
  generalize hG : genericTry source env jid st sched = G at h ⊢
  obtain ⟨r, stG, schedG⟩ := G
  dsimp only at h
  subst h
  exact ⟨rfl, rfl⟩

theorem startState_entry (source : ScrapingSource) (st0 : EngineState) :
    alookup (startState source st0).2.activeJobs st0.nextJobId =
      some { sourceId := source.id, progress := 0, status := JStatus.running } := by
  simp [startState, createScrapingJob, registerActive, alookup]

/-- The configured tier under a quiet schedule when no element matches the
configured container selector: the try block delegates to the generic
fallback, whose result it returns; tracker-state bookkeeping is limited to
progress and the clock. -/
theorem genericTry_empty_allTick (source : ScrapingSource) (env : Env) (jid : Nat)
    (st : EngineState) (sched : List Ev) (sel : Selectors) (csel : String)
    (hall : AllTick sched)
    (hsel : source.selectors = some sel) (hlc : sel.leadContainer = some csel)
    (hcont : env.containers = [])
    (hrej : env.fetchMain.rejected = none) (hok : env.fetchMain.httpOk = true) :
    (genericTry source env jid st sched).1 =
      (match fallbackLeads env with
        | Except.error t => Except.error t
        | Except.ok l => Except.ok l) ∧
    (genericTry source env jid st sched).2.1.dbJobs = st.dbJobs ∧
    (genericTry source env jid st sched).2.1.dbLeads = st.dbLeads ∧
    (genericTry source env jid st sched).2.1.cancelFlag = st.cancelFlag ∧
    (alookup (genericTry source env jid st sched).2.1.activeJobs jid).map JobInfo.status =
      (alookup st.activeJobs jid).map JobInfo.status ∧
    AllTick (genericTry source env jid st sched).2.2 := by
  unfold genericTry
  dsimp only
  rcases awaitPt_allTick jid (updateJobProgress st jid 10) sched hall with ⟨hA, hAall⟩
  generalize hAB : awaitPt jid (updateJobProgress st jid 10) sched = A at hA hAall
  obtain ⟨st1, sched1⟩ := A
  dsimp only at hA hAall ⊢
  subst hA
  rw [hrej]
  dsimp only
  rw [if_neg (by rw [hok]; exact fun h => Bool.noConfusion h)]
  rcases awaitPt_allTick jid { updateJobProgress st jid 10 with
      clock := (updateJobProgress st jid 10).clock + 1 } sched1 hAall with ⟨hB, hBall⟩
  generalize hBB : awaitPt jid { updateJobProgress st jid 10 with
      clock := (updateJobProgress st jid 10).clock + 1 } sched1 = B at hB hBall
  obtain ⟨st2, sched2⟩ := B
  dsimp only at hB hBall ⊢
  subst hB
  rw [hsel]
  dsimp only
  rw [hlc]
  dsimp only
  rw [hcont]
  simp only [extractLoopG, List.reverse_nil, List.length_nil, if_pos]
  have hsr := swgs_result env jid
    (updateJobProgress (updateJobProgress { updateJobProgress st jid 10 with
      clock := (updateJobProgress st jid 10).clock + 1 + 1 } jid 20) jid 30) sched2
  rcases swgs_state_allTick env jid
    (updateJobProgress (updateJobProgress { updateJobProgress st jid 10 with
      clock := (updateJobProgress st jid 10).clock + 1 + 1 } jid 20) jid 30) sched2 hBall with
    ⟨w1, w2, w3, w4, w5⟩
  refine ⟨hsr, ?_, ?_, ?_, ?_, w5⟩
  · rw [w1, dbJobs_progress, dbJobs_progress]
    dsimp only
    rw [dbJobs_progress]
  · rw [w2, dbLeads_progress, dbLeads_progress]
    dsimp only
    rw [dbLeads_progress]
  · rw [w3, flag_progress, flag_progress]
    dsimp only
    rw [flag_progress]
  · rw [w4, status_progress, status_progress]
    dsimp only
    rw [status_progress]

/-- Claim C7: for a source handled by the configured extractor whose
container selector matches nothing, if the page has a generic-fallback
business card with a discoverable (non-empty) title, a run with no
external pause/cancel still completes: it returns the fallback lead count,
and the persisted job row has status completed with leadsFound equal to
that count, which is at least one. -/
theorem c7_fallback_engaged_completes
    (source : ScrapingSource) (env : Env) (st0 : EngineState) (sel : Selectors) (csel : String)
    (hname : strIncludes source.name "Commercial Real Estate" = false)
    (hsel : source.selectors = some sel) (hlc : sel.leadContainer = some csel)
    (hcont : env.containers = [])
    (hrej : env.fetchMain.rejected = none) (hok : env.fetchMain.httpOk = true)
    (hrej2 : env.fetchFb.rejected = none) (hok2 : env.fetchFb.httpOk = true)
    (hcard : ∃ c ∈ env.cards, ¬ strTrim c.title = "")
    (h0 : isScrapingRunning st0 source.id = false)
    (hper : ∀ j, env.persistOk j = true) :
    (scrapeSource source env [] st0).1 = RunResult.returned (fallbackList env).length ∧
    1 ≤ (fallbackList env).length ∧
    ∃ rec, alookup (scrapeSource source env [] st0).2.dbJobs st0.nextJobId = some rec ∧
      rec.status = DbStatus.completed ∧ rec.leadsFound = (fallbackList env).length := by
  have hFLne : fallbackList env ≠ [] := by
    rcases hcard with ⟨c, hc, ht⟩
    have hmem : ({ companyName := strTrim c.title } : Lead) ∈ fallbackList env := by
      unfold fallbackList
      refine List.mem_append.mpr (Or.inr ?_)
      exact List.mem_filterMap.mpr ⟨c, hc, by simp [ht]⟩
    exact List.ne_nil_of_mem hmem
  have hFL : fallbackLeads env = Except.ok (fallbackList env) :=
    fallbackLeads_ok env hrej2 hok2 hFLne
  have hlen : 1 ≤ (fallbackList env).length := by
    cases hfl : fallbackList env with
    | nil => exact absurd hfl hFLne
    | cons a l => simp
  unfold scrapeSource
  rw [if_neg (by simp [h0])]
  dsimp only
  rw [startState_fst]
  have hEP : ∀ (stX : EngineState) (schedX : List Ev),
      extractPhase source env st0.nextJobId stX schedX =
        scrapeGenericWebsite source env st0.nextJobId stX schedX := by
    intro stX schedX
    unfold extractPhase
    rw [if_neg (by simp [hname])]
  rw [hEP]
  obtain ⟨g1, g2, g3, g4, g5, g6⟩ := genericTry_empty_allTick source env st0.nextJobId
    (startState source st0).2 [] sel csel allTick_nil hsel hlc hcont hrej hok
  rw [hFL] at g1
  obtain ⟨s1, s2⟩ := sgw_ok source env st0.nextJobId (startState source st0).2 []
    (fallbackList env) g1
  generalize hG : scrapeGenericWebsite source env st0.nextJobId (startState source st0).2 [] = G
    at s1 s2 ⊢
  obtain ⟨r, stG, schedG⟩ := G
  dsimp only at s1 s2 ⊢
  subst s1
  dsimp only
  have hsG : stG = (genericTry source env st0.nextJobId (startState source st0).2 []).2.1 :=
    congrArg Prod.fst s2
  have hscG : schedG = (genericTry source env st0.nextJobId (startState source st0).2 []).2.2 :=
    congrArg Prod.snd s2
  have hflagG : stG.cancelFlag = false := by
    rw [hsG, g4, startState_flag]
  rw [if_neg (by simp [hflagG])]
  have hstatG : (alookup (updateJobProgress stG st0.nextJobId 50).activeJobs st0.nextJobId).map
      JobInfo.status = some JStatus.running := by
    rw [status_progress, hsG, g5, startState_entry]
    rfl
  obtain ⟨p1, p2, p3, p4, p5, p6⟩ := persistLoop_allTick st0.nextJobId
    (fallbackList env).length env
    (fallbackList env) 0 0 (updateJobProgress stG st0.nextJobId 50) schedG
    (by rw [hscG]; exact g6) (by rw [flag_progress]; exact hflagG) hstatG
  generalize hP : persistLoop st0.nextJobId (fallbackList env).length env (fallbackList env) 0 0
    (updateJobProgress stG st0.nextJobId 50) schedG = P at p1 p2 p3 p4 p5 p6 ⊢
  obtain ⟨r4, st4, sched4⟩ := P
  dsimp only at p1 p2 p3 p4 p5 p6 ⊢
  rw [okCount_allTrue env hper] at p1
  subst p1
  dsimp only
  rw [if_neg (by simp [p4])]
  have hdb4 : st4.dbJobs = (startState source st0).2.dbJobs := by
    rw [p2, dbJobs_progress, hsG, g2]
  generalize hA : awaitPt st0.nextJobId (dbUpdateJob st4 st0.nextJobId
      (fun r => { r with
                    status := DbStatus.completed
                    endTime := some st4.clock
                    leadsFound := (fallbackList env).length
                    leadsAdded := 0 + (fallbackList env).length })
      DbStatus.completed) sched4 = A
  obtain ⟨st5, sched5⟩ := A
  dsimp only
  have hA1 : (awaitPt st0.nextJobId (dbUpdateJob st4 st0.nextJobId
      (fun r => { r with
                    status := DbStatus.completed
                    endTime := some st4.clock
                    leadsFound := (fallbackList env).length
                    leadsAdded := 0 + (fallbackList env).length })
      DbStatus.completed) sched4).1 = st5 := by rw [hA]
  have h5db : st5.dbJobs = (dbUpdateJob st4 st0.nextJobId
      (fun r => { r with
                    status := DbStatus.completed
                    endTime := some st4.clock
                    leadsFound := (fallbackList env).length
                    leadsAdded := 0 + (fallbackList env).length })
      DbStatus.completed).dbJobs := by
    rw [← hA1, awaitPt_allTick_dbJobs _ _ _ p6]
  have h5all : AllTick sched5 := by
    have h := (awaitPt_allTick st0.nextJobId (dbUpdateJob st4 st0.nextJobId
      (fun r => { r with
                    status := DbStatus.completed
                    endTime := some st4.clock
                    leadsFound := (fallbackList env).length
                    leadsAdded := 0 + (fallbackList env).length })
      DbStatus.completed) sched4 p6).2
    rw [hA] at h
    exact h
  generalize hB : awaitPt st0.nextJobId
      { st5 with lastScraped := some st5.clock, clock := st5.clock + 1 } sched5 = B
  obtain ⟨st6, sched6⟩ := B
  dsimp only
  have hB1 : (awaitPt st0.nextJobId
      { st5 with lastScraped := some st5.clock, clock := st5.clock + 1 } sched5).1 = st6 := by
    rw [hB]
  have h6db : st6.dbJobs = st5.dbJobs := by
    rw [← hB1, awaitPt_allTick_dbJobs _ _ _ h5all]
  refine ⟨by rw [Nat.zero_add], hlen, ?_⟩
  refine ⟨{ sourceId := source.id, status := DbStatus.completed, startTime := st0.clock,
            endTime := some st4.clock, leadsFound := (fallbackList env).length,
            leadsAdded := 0 + (fallbackList env).length, error := none }, ?_, rfl, rfl⟩
  dsimp only
  rw [h6db, h5db]
  dsimp only [dbUpdateJob]
  rw [alookup_aupdate_self, hdb4, startState_lookup]
  rfl

theorem pause_entry (st : EngineState) (jid : Nat) (info : JobInfo)
    (hl : alookup st.activeJobs jid = some info) (hs : info.status = JStatus.running) :
    (alookup (pauseScrapingJob st jid).2.activeJobs jid).map JobInfo.status =
      some JStatus.paused ∧
    (pauseScrapingJob st jid).2.cancelFlag = st.cancelFlag ∧
    (pauseScrapingJob st jid).2.dbLeads = st.dbLeads := by
  unfold pauseScrapingJob
  rw [hl]
  dsimp only
  rw [if_pos hs]
  dsimp only [dbUpdateJob]
  refine ⟨?_, rfl, rfl⟩
  rw [alookup_aupdate_self, hl]
  rfl

theorem resume_entry (st : EngineState) (jid : Nat) (info : JobInfo)
    (hl : alookup st.activeJobs jid = some info) (hs : info.status = JStatus.paused) :
    (alookup (resumeScrapingJob st jid).2.activeJobs jid).map JobInfo.status =
      some JStatus.running ∧
    (resumeScrapingJob st jid).2.cancelFlag = st.cancelFlag ∧
    (resumeScrapingJob st jid).2.dbLeads = st.dbLeads := by
  unfold resumeScrapingJob
  rw [hl]
  dsimp only
  rw [if_pos hs]
  dsimp only [dbUpdateJob]
  refine ⟨?_, rfl, rfl⟩
  rw [alookup_aupdate_self, hl]
  rfl

/-- The configured extraction loop when a pause request lands at the k-th
visited element: iteration stops there, exactly the leads of the first k
containers are kept, the remaining containers are dropped, and the rest of
the schedule is untouched. -/
theorem extractLoopG_pauseAt (jid total : Nat) (sel : Selectors) :
    ∀ (k : Nat) (cs : List Container) (processed : Nat) (acc : List Lead)
      (st : EngineState) (rest : List Ev),
      (alookup st.activeJobs jid).map JobInfo.status = some JStatus.running →
      k < cs.length →
      (extractLoopG jid total sel cs processed acc st
        (List.replicate k Ev.tick ++ Ev.pauseReq :: rest)).1 =
        acc.reverse ++ collectG sel (cs.take k) ∧
      (extractLoopG jid total sel cs processed acc st
        (List.replicate k Ev.tick ++ Ev.pauseReq :: rest)).2.2 = rest ∧
      (alookup (extractLoopG jid total sel cs processed acc st
        (List.replicate k Ev.tick ++ Ev.pauseReq :: rest)).2.1.activeJobs jid).map
        JobInfo.status = some JStatus.paused ∧
      (extractLoopG jid total sel cs processed acc st
        (List.replicate k Ev.tick ++ Ev.pauseReq :: rest)).2.1.cancelFlag = st.cancelFlag ∧
      (extractLoopG jid total sel cs processed acc st
        (List.replicate k Ev.tick ++ Ev.pauseReq :: rest)).2.1.dbLeads = st.dbLeads := by
  intro k
  induction k with
  | zero =>
      intro cs processed acc st rest hst hk
      cases cs with
      | nil => exact absurd hk (by simp)
      | cons c cs2 =>
          unfold extractLoopG
          simp only [List.replicate, List.nil_append]
          dsimp only [awaitPt, applyEv]
          cases hl : alookup st.activeJobs jid with
          | none => rw [hl] at hst; exact absurd hst (by simp)
          | some info =>
              have hinfo : info.status = JStatus.running := by
                rw [hl] at hst
                simpa using hst
              rcases pause_entry { st with clock := st.clock + 1 } jid info hl hinfo with
                ⟨q1, q2, q3⟩
              split
              · next x heq =>
                  rw [heq] at q1
                  exact absurd q1 (by simp)
              · next x info2 heq =>
                  have hp2 : info2.status = JStatus.paused := by
                    rw [heq] at q1
                    simpa using q1
                  rw [if_pos hp2]
                  refine ⟨by simp [collectG], rfl, ?_, q2, q3⟩
                  rw [heq]
                  simpa using hp2
  | succ m ih =>
      intro cs processed acc st rest hst hk
      cases cs with
      | nil => exact absurd hk (by simp)
      | cons c cs2 =>
          unfold extractLoopG
          rw [show List.replicate (m + 1) Ev.tick ++ Ev.pauseReq :: rest =
            Ev.tick :: (List.replicate m Ev.tick ++ Ev.pauseReq :: rest) by
              rw [List.replicate_succ, List.cons_append]]
          dsimp only [awaitPt, applyEv]
          cases hl : alookup st.activeJobs jid with
          | none => rw [hl] at hst; exact absurd hst (by simp)
          | some info =>
              have hinfo : info.status = JStatus.running := by
                rw [hl] at hst
                simpa using hst
              dsimp only
              rw [if_neg (by rw [hinfo]; exact fun h => JStatus.noConfusion h)]
              have hk2 : m < cs2.length := by simpa using hk
              by_cases hnm : (match sel.companyName with
                  | none => ""
                  | some _ => strTrim c.nameText) = ""
              · rw [if_pos hnm]
                rcases ih cs2 processed acc { st with clock := st.clock + 1 } rest
                    (by simpa [hl]) hk2 with ⟨r1, r2, r3, r4, r5⟩
                refine ⟨?_, r2, r3, r4, r5⟩
                rw [r1]
                have : collectG sel ((c :: cs2).take (m + 1)) = collectG sel (cs2.take m) := by
                  rw [List.take_succ_cons]
                  simp [collectG, List.filterMap_cons, hnm]
                rw [this]
              · rw [if_neg hnm]
                have hstat : (alookup (updateJobProgress { st with clock := st.clock + 1 } jid
                    (min (30 + (processed + 1) * 20 / total) 50)).activeJobs jid).map
                    JobInfo.status = some JStatus.running := by
                  rw [status_progress]
                  simpa [hl]
                rcases ih cs2 (processed + 1) _ (updateJobProgress { st with clock := st.clock + 1 }
                    jid (min (30 + (processed + 1) * 20 / total) 50)) rest hstat hk2 with
                  ⟨r1, r2, r3, r4, r5⟩
                refine ⟨?_, r2, r3, ?_, ?_⟩
                · rw [r1]
                  have : collectG sel ((c :: cs2).take (m + 1)) =
                      ({ companyName := (match sel.companyName with
                          | none => ""
                          | some _ => strTrim c.nameText) } : Lead) :: collectG sel (cs2.take m) := by
                    rw [List.take_succ_cons]
                    simp [collectG, List.filterMap_cons, hnm]
                  rw [this]
                  simp
                · rw [r4, flag_progress]
                · rw [r5, dbLeads_progress]

/-- The configured tier when the fetch succeeds and a pause request lands
at container k: the truncated lead list is returned as the tier result
(no fallback is consulted when it is non-empty), and the entry is left
paused. -/
theorem genericTry_pauseAt (source : ScrapingSource) (env : Env) (jid : Nat)
    (st : EngineState) (sel : Selectors) (csel : String) (k : Nat) (rest : List Ev)
    (hsel : source.selectors = some sel) (hlc : sel.leadContainer = some csel)
    (hrej : env.fetchMain.rejected = none) (hok : env.fetchMain.httpOk = true)
    (hst : (alookup st.activeJobs jid).map JobInfo.status = some JStatus.running)
    (hk : k < env.containers.length)
    (hLne : collectG sel (env.containers.take k) ≠ []) :
    (genericTry source env jid st
      (Ev.tick :: Ev.tick :: (List.replicate k Ev.tick ++ Ev.pauseReq :: rest))).1 =
      Except.ok (collectG sel (env.containers.take k)) ∧
    (genericTry source env jid st
      (Ev.tick :: Ev.tick :: (List.replicate k Ev.tick ++ Ev.pauseReq :: rest))).2.2 = rest ∧
    (alookup (genericTry source env jid st
      (Ev.tick :: Ev.tick :: (List.replicate k Ev.tick ++ Ev.pauseReq :: rest))).2.1.activeJobs
      jid).map JobInfo.status = some JStatus.paused ∧
    (genericTry source env jid st
      (Ev.tick :: Ev.tick :: (List.replicate k Ev.tick ++ Ev.pauseReq :: rest))).2.1.cancelFlag =
      st.cancelFlag ∧
    (genericTry source env jid st
      (Ev.tick :: Ev.tick :: (List.replicate k Ev.tick ++ Ev.pauseReq :: rest))).2.1.dbLeads =
      st.dbLeads := by
  unfold genericTry
  dsimp only [awaitPt, applyEv]
  rw [hrej]
  dsimp only
  rw [if_neg (by rw [hok]; exact fun h => Bool.noConfusion h)]
  rw [hsel]
  dsimp only
  rw [hlc]
  dsimp only
  have hstat : (alookup (updateJobProgress (updateJobProgress
      { updateJobProgress st jid 10 with
        clock := (updateJobProgress st jid 10).clock + 1 + 1 } jid 20) jid 30).activeJobs
      jid).map JobInfo.status = some JStatus.running := by
    rw [status_progress, status_progress]
    dsimp only
    rw [status_progress]
    exact hst
  rcases extractLoopG_pauseAt jid env.containers.length sel k env.containers 0 []
      (updateJobProgress (updateJobProgress
        { updateJobProgress st jid 10 with
          clock := (updateJobProgress st jid 10).clock + 1 + 1 } jid 20) jid 30) rest hstat hk with
    ⟨r1, r2, r3, r4, r5⟩
  generalize hE : extractLoopG jid env.containers.length sel env.containers 0 []
      (updateJobProgress (updateJobProgress
        { updateJobProgress st jid 10 with
          clock := (updateJobProgress st jid 10).clock + 1 + 1 } jid 20) jid 30)
      (List.replicate k Ev.tick ++ Ev.pauseReq :: rest) = E at r1 r2 r3 r4 r5 ⊢
  obtain ⟨leads, st3, sched3⟩ := E
  dsimp only at r1 r2 r3 r4 r5 ⊢
  rw [show ([] : List Lead).reverse ++ collectG sel (env.containers.take k) =
    collectG sel (env.containers.take k) by simp] at r1
  subst r1
  rw [if_neg (by simpa [List.length_eq_zero] using hLne)]
  refine ⟨rfl, r2, r3, ?_, ?_⟩
  · rw [r4, flag_progress, flag_progress]
    dsimp only
    rw [flag_progress]
  · rw [r5, dbLeads_progress, dbLeads_progress]
    dsimp only
    rw [dbLeads_progress]

theorem waitForResume_not_paused (jid : Nat) (st : EngineState) (sched : List Ev)
    (h : ∀ info, alookup st.activeJobs jid = some info → info.status ≠ JStatus.paused) :
    waitForResume jid st sched = (some (), st, sched) := by
  cases sched with
  | nil =>
      unfold waitForResume
      cases hl : alookup st.activeJobs jid with
      | none => rfl
      | some info =>
          dsimp only
          rw [if_neg (h info hl)]
  | cons e rest =>
      unfold waitForResume
      cases hl : alookup st.activeJobs jid with
      | none => rfl
      | some info =>
          dsimp only
          rw [if_neg (h info hl)]

/-- The persistence loop started while the entry is paused, on the schedule
that resumes the job during the first pause wait: the first lead is
persisted before the engine notices the pause, the wait consumes the resume
request, and the remaining leads run through; every lead is persisted. -/
theorem persistLoop_pausedStart (jid total : Nat) (env : Env)
    (l0 : Lead) (L2 : List Lead) (st : EngineState)
    (hfl : st.cancelFlag = false)
    (hst : (alookup st.activeJobs jid).map JobInfo.status = some JStatus.paused)
    (hper : ∀ j, env.persistOk j = true) :
    (persistLoop jid total env (l0 :: L2) 0 0 st
      (Ev.tick :: Ev.resumeReq :: List.replicate L2.length Ev.tick)).1 =
      some (1 + L2.length) ∧
    (persistLoop jid total env (l0 :: L2) 0 0 st
      (Ev.tick :: Ev.resumeReq :: List.replicate L2.length Ev.tick)).2.1.cancelFlag = false ∧
    AllTick (persistLoop jid total env (l0 :: L2) 0 0 st
      (Ev.tick :: Ev.resumeReq :: List.replicate L2.length Ev.tick)).2.2 := by
  unfold persistLoop
  rw [if_neg (by simp [hfl])]
  dsimp only [awaitPt, applyEv]
  rw [if_pos (hper 0)]
  split
  · next x info2 heq =>
      have hs2 : info2.status = JStatus.paused := by
        have hq : (some info2).map JobInfo.status = some JStatus.paused := by
          rw [← heq, status_progress]
          exact hst
        simpa using hq
      rw [if_pos hs2]
      have hfl2 : (updateJobProgress
          { st with
            clock := st.clock + 1, dbLeads := st.dbLeads + 1,
            trace := TraceEv.persistLead ((alookup st.activeJobs jid).map JobInfo.status) :: st.trace }
          jid (50 + 0 * 50 / total)).cancelFlag = false := by
        rw [flag_progress]; exact hfl
      revert heq hfl2
      generalize updateJobProgress
          { st with
            clock := st.clock + 1, dbLeads := st.dbLeads + 1,
            trace := TraceEv.persistLead ((alookup st.activeJobs jid).map JobInfo.status) :: st.trace }
          jid (50 + 0 * 50 / total) = ST
      intro heq hfl2
      unfold waitForResume
      rw [heq]
      dsimp only
      rw [if_pos hs2]
      dsimp only [applyEv]
      rcases resume_entry { ST with clock := ST.clock + 1 } jid info2 heq hs2 with ⟨w1, w2, w3⟩
      rw [waitForResume_not_paused jid _ (List.replicate L2.length Ev.tick)
        (by
          intro info3 hl3
          have h0 : (some info3).map JobInfo.status = some JStatus.running := by
            rw [← hl3]
            exact w1
          have h3 : info3.status = JStatus.running := by simpa using h0
          rw [h3]
          exact fun h => JStatus.noConfusion h)]
      dsimp only
      rw [if_neg (by rw [w2]; simp [hfl2])]
      rcases persistLoop_allTick jid total env L2 1 1
        (resumeScrapingJob { ST with clock := ST.clock + 1 } jid).2
        (List.replicate L2.length Ev.tick)
        (allTick_replicate _)
        (by rw [w2]; exact hfl2)
        w1 with ⟨r1, r2, r3, r4, r5, r6⟩
      refine ⟨?_, r4, r6⟩
      rw [r1, okCount_allTrue env hper]
  · next x heq =>
      have hq : (alookup (updateJobProgress
          { st with
            clock := st.clock + 1, dbLeads := st.dbLeads + 1,
            trace := TraceEv.persistLead ((alookup st.activeJobs jid).map JobInfo.status) :: st.trace }
          jid (50 + 0 * 50 / total)).activeJobs jid).map JobInfo.status = some JStatus.paused := by
        rw [status_progress]
        exact hst
      rw [heq] at hq
      exact absurd hq (by simp)

theorem collectG_length_le (sel : Selectors) (cs : List Container) :
    (collectG sel cs).length ≤ cs.length := by
  unfold collectG
  exact List.length_filterMap_le _ _

/-- Claim C10: when a pause request lands while the configured tier is
still iterating container elements (after element k of a longer list), the
loop stops there and the truncated lead list is treated as the complete
extraction result: after a resume the job finishes normally, the run
returns only the truncated count, and the persisted row records leadsFound
equal to it — a count at most k and strictly below the number of matching
containers on the page, which are silently dropped. -/
theorem c10_truncated_extraction
    (source : ScrapingSource) (env : Env) (st0 : EngineState)
    (sel : Selectors) (csel : String) (k : Nat)
    (hname : strIncludes source.name "Commercial Real Estate" = false)
    (hsel : source.selectors = some sel) (hlc : sel.leadContainer = some csel)
    (hrej : env.fetchMain.rejected = none) (hok : env.fetchMain.httpOk = true)
    (hk : k < env.containers.length)
    (hLne : collectG sel (env.containers.take k) ≠ [])
    (h0 : isScrapingRunning st0 source.id = false)
    (hper : ∀ j, env.persistOk j = true) :
    (scrapeSource source env
        (Ev.tick :: Ev.tick :: (List.replicate k Ev.tick ++ Ev.pauseReq :: Ev.tick ::
          Ev.resumeReq ::
          List.replicate ((collectG sel (env.containers.take k)).length - 1) Ev.tick))
        st0).1 =
      RunResult.returned (collectG sel (env.containers.take k)).length ∧
    (collectG sel (env.containers.take k)).length ≤ k ∧
    (collectG sel (env.containers.take k)).length < env.containers.length ∧
    ∃ rec, alookup (scrapeSource source env
        (Ev.tick :: Ev.tick :: (List.replicate k Ev.tick ++ Ev.pauseReq :: Ev.tick ::
          Ev.resumeReq ::
          List.replicate ((collectG sel (env.containers.take k)).length - 1) Ev.tick))
        st0).2.dbJobs st0.nextJobId = some rec ∧
      rec.status = DbStatus.completed ∧
      rec.leadsFound = (collectG sel (env.containers.take k)).length ∧
      rec.leadsAdded = (collectG sel (env.containers.take k)).length := by
  have hlek : (collectG sel (env.containers.take k)).length ≤ k := by
    have h1 := collectG_length_le sel (env.containers.take k)
    rw [List.length_take] at h1
    omega
  obtain ⟨l0, L2, hL⟩ := List.exists_cons_of_ne_nil hLne
  have hlek2 : L2.length + 1 ≤ k := by
    have h := hlek
    rw [hL] at h
    simpa using h
  rw [hL]
  simp only [List.length_cons, Nat.add_sub_cancel]
  unfold scrapeSource
  rw [if_neg (by simp [h0])]
  dsimp only
  rw [startState_fst]
  have hEP : ∀ (stX : EngineState) (schedX : List Ev),
      extractPhase source env st0.nextJobId stX schedX =
        scrapeGenericWebsite source env st0.nextJobId stX schedX := by
    intro stX schedX
    unfold extractPhase
    rw [if_neg (by simp [hname])]
  rw [hEP]
  have hstR : (alookup (startState source st0).2.activeJobs st0.nextJobId).map JobInfo.status =
      some JStatus.running := by
    rw [startState_entry]
    rfl
  obtain ⟨g1, g2, g3, g4, g5⟩ := genericTry_pauseAt source env st0.nextJobId
    (startState source st0).2 sel csel k
    (Ev.tick :: Ev.resumeReq :: List.replicate L2.length Ev.tick)
    hsel hlc hrej hok hstR hk hLne
  rw [hL] at g1
  obtain ⟨s1, s2⟩ := sgw_ok source env st0.nextJobId (startState source st0).2
    (Ev.tick :: Ev.tick :: (List.replicate k Ev.tick ++ Ev.pauseReq :: Ev.tick ::
      Ev.resumeReq :: List.replicate L2.length Ev.tick))
    (l0 :: L2) g1
  have hGinv := (genericTry_spec source env st0.nextJobId (startState source st0).2
    (Ev.tick :: Ev.tick :: (List.replicate k Ev.tick ++ Ev.pauseReq :: Ev.tick ::
      Ev.resumeReq :: List.replicate L2.length Ev.tick))).1
  generalize hG : scrapeGenericWebsite source env st0.nextJobId (startState source st0).2
    (Ev.tick :: Ev.tick :: (List.replicate k Ev.tick ++ Ev.pauseReq :: Ev.tick ::
      Ev.resumeReq :: List.replicate L2.length Ev.tick)) = G at s1 s2 ⊢
  obtain ⟨r, stG, schedG⟩ := G
  dsimp only at s1 s2 ⊢
  subst s1
  dsimp only
  have hsGe : stG = (genericTry source env st0.nextJobId (startState source st0).2
      (Ev.tick :: Ev.tick :: (List.replicate k Ev.tick ++ Ev.pauseReq :: Ev.tick ::
        Ev.resumeReq :: List.replicate L2.length Ev.tick))).2.1 := congrArg Prod.fst s2
  have hscGe : schedG = (genericTry source env st0.nextJobId (startState source st0).2
      (Ev.tick :: Ev.tick :: (List.replicate k Ev.tick ++ Ev.pauseReq :: Ev.tick ::
        Ev.resumeReq :: List.replicate L2.length Ev.tick))).2.2 := congrArg Prod.snd s2
  have hflagG : stG.cancelFlag = false := by
    rw [hsGe, g4, startState_flag]
  have hpausedG : (alookup stG.activeJobs st0.nextJobId).map JobInfo.status =
      some JStatus.paused := by
    rw [hsGe]
    exact g3
  have hschedG : schedG = Ev.tick :: Ev.resumeReq :: List.replicate L2.length Ev.tick := by
    rw [hscGe]
    exact g2
  rw [if_neg (by simp [hflagG])]
  rw [hschedG]
  obtain ⟨p1, p2, p6⟩ := persistLoop_pausedStart st0.nextJobId (l0 :: L2).length env l0 L2
    (updateJobProgress stG st0.nextJobId 50)
    (by rw [flag_progress]; exact hflagG)
    (by rw [status_progress]; exact hpausedG)
    hper
  have hPinv := (persistLoop_spec st0.nextJobId (l0 :: L2).length env (l0 :: L2) 0 0
    (updateJobProgress stG st0.nextJobId 50)
    (Ev.tick :: Ev.resumeReq :: List.replicate L2.length Ev.tick)).1
  generalize hP : persistLoop st0.nextJobId (l0 :: L2).length env (l0 :: L2) 0 0
    (updateJobProgress stG st0.nextJobId 50)
    (Ev.tick :: Ev.resumeReq :: List.replicate L2.length Ev.tick) = P at p1 p2 p6 hPinv ⊢
  obtain ⟨ropt, st4, sched4⟩ := P
  dsimp only at p1 p2 p6 hPinv ⊢
  subst p1
  dsimp only
  rw [if_neg (by simp [p2])]
  obtain ⟨recG, hrecG⟩ := hGinv.pres _ (startState_lookup source st0)
  rw [← hsGe] at hrecG
  obtain ⟨rec4, hrec4⟩ := hPinv.pres recG (by rw [dbJobs_progress]; exact hrecG)
  generalize hA : awaitPt st0.nextJobId (dbUpdateJob st4 st0.nextJobId
      (fun r => { r with
                    status := DbStatus.completed
                    endTime := some st4.clock
                    leadsFound := (l0 :: L2).length
                    leadsAdded := 1 + L2.length })
      DbStatus.completed) sched4 = A
  obtain ⟨st5, sched5⟩ := A
  dsimp only
  have hA1 : (awaitPt st0.nextJobId (dbUpdateJob st4 st0.nextJobId
      (fun r => { r with
                    status := DbStatus.completed
                    endTime := some st4.clock
                    leadsFound := (l0 :: L2).length
                    leadsAdded := 1 + L2.length })
      DbStatus.completed) sched4).1 = st5 := by rw [hA]
  have h5db : st5.dbJobs = (dbUpdateJob st4 st0.nextJobId
      (fun r => { r with
                    status := DbStatus.completed
                    endTime := some st4.clock
                    leadsFound := (l0 :: L2).length
                    leadsAdded := 1 + L2.length })
      DbStatus.completed).dbJobs := by
    rw [← hA1, awaitPt_allTick_dbJobs _ _ _ p6]
  have h5all : AllTick sched5 := by
    have h := (awaitPt_allTick st0.nextJobId (dbUpdateJob st4 st0.nextJobId
      (fun r => { r with
                    status := DbStatus.completed
                    endTime := some st4.clock
                    leadsFound := (l0 :: L2).length
                    leadsAdded := 1 + L2.length })
      DbStatus.completed) sched4 p6).2
    rw [hA] at h
    exact h
  generalize hB : awaitPt st0.nextJobId
      { st5 with lastScraped := some st5.clock, clock := st5.clock + 1 } sched5 = B
  obtain ⟨st6, sched6⟩ := B
  dsimp only
  have hB1 : (awaitPt st0.nextJobId
      { st5 with lastScraped := some st5.clock, clock := st5.clock + 1 } sched5).1 = st6 := by
    rw [hB]
  have h6db : st6.dbJobs = st5.dbJobs := by
    rw [← hB1, awaitPt_allTick_dbJobs _ _ _ h5all]
  refine ⟨by rw [Nat.add_comm 1 L2.length], hlek2, Nat.lt_of_le_of_lt hlek2 hk, ?_⟩
  refine ⟨{ rec4 with
            status := DbStatus.completed,
            endTime := some st4.clock,
            leadsFound := (l0 :: L2).length,
            leadsAdded := 1 + L2.length }, ?_, rfl, rfl, by dsimp only; omega⟩
  dsimp only
  rw [h6db, h5db]
  dsimp only [dbUpdateJob]
  rw [alookup_aupdate_self, hrec4]
  rfl

/-- A run environment in which every fetch succeeds, every page is empty
and every createLead call succeeds. -/
def envD : Env :=
  { fetchMain := { rejected := none, httpOk := true, httpStatus := 200 }
    containers := []
    fetchFb := { rejected := none, httpOk := true, httpStatus := 200 }
    cards := []
    headings := []
    fetchCre := { rejected := none, httpOk := true, httpStatus := 200 }
    creFound := false
    creItems := []
    creHeadings := []
    persistOk := fun _ => true }

/-- The engine state at a fresh deployment: nothing tracked, nothing
stored. -/
def stEmpty : EngineState :=
  { activeJobs := [], dbJobs := [], dbLeads := 0, nextJobId := 1, clock := 0,
    cancelFlag := false, lastScraped := none, trace := [] }

theorem wf_stEmpty : WF stEmpty :=
  ⟨fun p hp => absurd hp (List.not_mem_nil p), fun p hp => absurd hp (List.not_mem_nil p)⟩

theorem startState_trace (source : ScrapingSource) (st0 : EngineState) :
    (startState source st0).2.trace =
      TraceEv.jobStatusWrite DbStatus.running :: st0.trace := rfl

/-- A phase respecting the invariant adds no completed status write. -/
theorem no_completed_trace_via_inv {jid : Nat} {stA stB : EngineState}
    (inv : PhaseInv jid stA stB)
    (hA : TraceEv.jobStatusWrite DbStatus.completed ∉ stA.trace) :
    TraceEv.jobStatusWrite DbStatus.completed ∉ stB.trace := by
  intro h
  rcases inv.trace_sub _ h with h1 | ⟨h2, _⟩
  · exact hA h1
  · exact h2 rfl

/-- A generic source with a full selector configuration. -/
def src3 : ScrapingSource :=
  { id := 3, name := "Cafes", url := "https://example.com/cafes",
    selectors := some { leadContainer := some ".row", companyName := some ".name" } }

/-- A page on which the configured container selector matches two elements
with non-empty names. -/
def env3 : Env :=
  { envD with containers := [{ nameText := "A" }, { nameText := "B" }] }

/-- A tracker that already holds a running entry for source 1 under job id
5, together with the matching stored row. -/
def stC1 : EngineState :=
  { activeJobs := [(5, { sourceId := 1, progress := 40, status := JStatus.running })],
    dbJobs := [(5, { sourceId := 1, status := DbStatus.running, startTime := 0,
                     endTime := none, leadsFound := 0, leadsAdded := 0, error := none })],
    dbLeads := 0, nextJobId := 6, clock := 3, cancelFlag := false,
    lastScraped := none, trace := [] }

/-- A source with id 1, the one stC1 already tracks. -/
def srcA : ScrapingSource :=
  { id := 1, name := "Accounting Firms", url := "https://example.com/acc",
    selectors := some { leadContainer := some ".row", companyName := some ".name" } }

/-- Claim C1: when the job tracker holds an active entry for the source
with status running or paused, scrapeSource rejects synchronously: it
throws the already-running error for that source id and returns the state
untouched, so in particular no ScrapingJob record is created. -/
theorem c1_concurrent_start_rejected (source : ScrapingSource) (env : Env)
    (sched : List Ev) (st : EngineState)
    (h : ∃ p ∈ st.activeJobs, p.2.sourceId = source.id ∧
        (p.2.status = JStatus.running ∨ p.2.status = JStatus.paused)) :
    (scrapeSource source env sched st).1 =
      RunResult.threw ("A scraping job is already running for source #" ++
        toString source.id) ∧
    (scrapeSource source env sched st).2 = st := by
  unfold scrapeSource
  rw [if_pos (isScrapingRunning_of_mem h)]
  exact ⟨rfl, rfl⟩

theorem c1_concurrent_start_rejected_witness :
    (scrapeSource srcA envD [] stC1).1 =
      RunResult.threw ("A scraping job is already running for source #" ++
        toString srcA.id) ∧
    (scrapeSource srcA envD [] stC1).2 = stC1 :=
  c1_concurrent_start_rejected srcA envD [] stC1
    ⟨(5, { sourceId := 1, progress := 40, status := JStatus.running }),
      List.mem_cons_self _ _, rfl, Or.inl rfl⟩

/-- A source for the concurrent-start race. -/
def srcC4 : ScrapingSource :=
  { id := 1, name := "Shops", url := "https://example.com/shops", selectors := none }

/-- Claim C4, refuted by the code: the isScrapingRunning check and the
activeJobs.set registration are separated by the awaited
storage.createScrapingJob call, so two concurrent scrapeSource calls for
the same source can both pass the check before either registers.  In the
modelled interleaving both checks return false, neither call throws, and
two ScrapingJob records and two active entries for the source exist
afterwards — the claim promises exactly one record and a ConcurrencyError
for the second call. -/
theorem c4_race_two_jobs_created :
    (raceTwoStarts srcC4 stEmpty).1 = false ∧
    (raceTwoStarts srcC4 stEmpty).2.1 = false ∧
    ((raceTwoStarts srcC4 stEmpty).2.2.dbJobs.filter
      (fun p => p.2.sourceId == srcC4.id)).length = 2 ∧
    ((raceTwoStarts srcC4 stEmpty).2.2.activeJobs.filter
      (fun p => p.2.sourceId == srcC4.id)).length = 2 := by
  decide

/-- A tracker holding a running entry for job 1 of source 7. -/
def stC8 : EngineState :=
  { activeJobs := [(1, { sourceId := 7, progress := 0, status := JStatus.running })],
    dbJobs := [], dbLeads := 0, nextJobId := 2, clock := 0, cancelFlag := false,
    lastScraped := none, trace := [] }

/-- Claim C8 counterexample: updateJobProgress clamps nothing — asked to
store 150 on an existing entry it stores 150 itself, a value outside the
0 to 100 range the claim promises. -/
theorem c8_counterexample :
    (alookup (updateJobProgress stC8 1 150).activeJobs 1).map JobInfo.progress =
      some 150 ∧ ¬ (150 : Nat) ≤ 100 := by
  decide

/-- Claim C8 (amended): setProgress stores the given percent value verbatim
on the active entry — no clamping to the 0 to 100 range is performed — and
is a no-op when no entry exists for the job id. -/
theorem c8_set_progress_amended (st : EngineState) (jid : Nat) (p : Nat) :
    (∀ info, alookup st.activeJobs jid = some info →
      alookup (updateJobProgress st jid p).activeJobs jid =
        some { info with progress := p }) ∧
    (alookup st.activeJobs jid = none → updateJobProgress st jid p = st) := by
  constructor
  · intro info h
    exact updateJobProgress_entry st jid p info h
  · intro h
    exact updateJobProgress_absent st jid p h

theorem c8_set_progress_amended_witness :
    alookup (updateJobProgress stC8 1 150).activeJobs 1 =
      some { sourceId := 7, progress := 150, status := JStatus.running } :=
  (c8_set_progress_amended stC8 1 150).1
    { sourceId := 7, progress := 0, status := JStatus.running } rfl

/-- Claim C3 counterexample: a run of source src3 on the two-element page
env3 in which the cancel request lands at the await point of the second
createLead call.  Both leads end up persisted (the run returns 2 and the
lead store grew by 2), the row is finalized as cancelled with an end time —
but its persisted leadsAdded is 0, not the count of leads persisted before
the cancellation took effect: cancelScrapingJob writes only status and
endTime, and the cancelled-exit path of scrapeSource skips the count
update. -/
theorem c3_counterexample :
    (scrapeSource src3 env3
      [Ev.tick, Ev.tick, Ev.tick, Ev.tick, Ev.tick, Ev.cancelReq] stEmpty).1 =
      RunResult.returned 2 ∧
    (scrapeSource src3 env3
      [Ev.tick, Ev.tick, Ev.tick, Ev.tick, Ev.tick, Ev.cancelReq] stEmpty).2.dbLeads = 2 ∧
    alookup (scrapeSource src3 env3
      [Ev.tick, Ev.tick, Ev.tick, Ev.tick, Ev.tick, Ev.cancelReq] stEmpty).2.dbJobs 1 =
      some { sourceId := 3, status := DbStatus.cancelled, startTime := 0,
             endTime := some 7, leadsFound := 0, leadsAdded := 0, error := none } ∧
    ¬ (alookup (scrapeSource src3 env3
      [Ev.tick, Ev.tick, Ev.tick, Ev.tick, Ev.tick, Ev.cancelReq] stEmpty).2.dbJobs 1).map
        JobRecord.leadsAdded = some 2 := by
  decide

/-- Claim C3 (amended): cancelling a tracked job sets the cancellation
flag, persists only status cancelled and an end time on its row — the
stored leadsAdded and leadsFound keep whatever values the row already had,
so the partial persisted count is never written at cancellation — and
removes the active entry; and a run that logs a cancelled status write
never ends with its persisted row in status completed (a cancel landing
during the awaited completion write overwrites that status, and once the
cancellation flag is set the engine issues no completion write). -/
theorem c3_cancelled_job_amended
    (source : ScrapingSource) (env : Env) (sched : List Ev) (st0 : EngineState)
    (stT : EngineState) (jidT : Nat) (infoT : JobInfo) (recT : JobRecord)
    (htr0 : st0.trace = [])
    (hlT : alookup stT.activeJobs jidT = some infoT)
    (hrT : alookup stT.dbJobs jidT = some recT) :
    (cancelScrapingJob stT jidT).1 = true ∧
    (cancelScrapingJob stT jidT).2.cancelFlag = true ∧
    alookup (cancelScrapingJob stT jidT).2.dbJobs jidT =
      some { recT with status := DbStatus.cancelled, endTime := some stT.clock } ∧
    alookup (cancelScrapingJob stT jidT).2.activeJobs jidT = none ∧
    (TraceEv.jobStatusWrite DbStatus.cancelled ∈ (scrapeSource source env sched st0).2.trace →
      ∀ rec, alookup (scrapeSource source env sched st0).2.dbJobs st0.nextJobId = some rec →
        rec.status ≠ DbStatus.completed) := by
  refine ⟨?_, ?_, ?_, ?_, ?_⟩
  · unfold cancelScrapingJob
    rw [hlT]
  · unfold cancelScrapingJob
    rw [hlT]
    rfl
  · unfold cancelScrapingJob
    rw [hlT]
    dsimp only [dbUpdateJob]
    rw [alookup_aupdate_self, hrT]
    rfl
  · unfold cancelScrapingJob
    rw [hlT]
    dsimp only [dbUpdateJob]
    exact alookup_aremove_self _ _
  · intro hcanc rec hrec hc
    unfold scrapeSource at hcanc hrec
    by_cases h0 : isScrapingRunning st0 source.id = true
    · rw [if_pos h0] at hcanc
      rw [htr0] at hcanc
      exact absurd hcanc (List.not_mem_nil _)
    · rw [if_neg h0] at hcanc hrec
      dsimp only at hcanc hrec
      rw [startState_fst] at hcanc hrec
      have hcre := startState_lookup source st0
      have hTrC : TraceEv.jobStatusWrite DbStatus.cancelled ∉ (startState source st0).2.trace := by
        rw [startState_trace, htr0]
        simp
      generalize hX : extractPhase source env st0.nextJobId (startState source st0).2 sched = X
        at hcanc hrec
      obtain ⟨exr, st2, sched2⟩ := X
      have hXinv : PhaseInv st0.nextJobId (startState source st0).2 st2 := by
        have h := (extractPhase_spec source env st0.nextJobId (startState source st0).2 sched).1
        rw [hX] at h
        exact h
      cases exr with
      | error t =>
          cases t with
          | errObj m =>
              dsimp only at hcanc hrec
              have hW := awaitPt_completed_rec st0.nextJobId _ sched2 rec hrec hc
              dsimp only [dbUpdateJob] at hW
              rw [alookup_aupdate_self] at hW
              rcases Option.map_eq_some'.mp hW with ⟨r0, hr0, hfr⟩
              rw [← hfr] at hc
              exact absurd hc (by simp)
          | nonErr =>
              dsimp only at hrec
              exact absurd hc (no_completed_via_inv hXinv hcre (by simp) hrec)
      | ok leads =>
          dsimp only at hcanc hrec
          by_cases hf2 : st2.cancelFlag = true
          · rw [if_pos hf2] at hrec
            exact absurd hc (no_completed_via_inv hXinv hcre (by simp) hrec)
          · rw [if_neg hf2] at hcanc hrec
            generalize hP : persistLoop st0.nextJobId leads.length env leads 0 0
                (updateJobProgress st2 st0.nextJobId 50) sched2 = P at hcanc hrec
            obtain ⟨r, st4, sched4⟩ := P
            have hPinv : PhaseInv st0.nextJobId (updateJobProgress st2 st0.nextJobId 50) st4 := by
              have h := (persistLoop_spec st0.nextJobId leads.length env leads 0 0
                (updateJobProgress st2 st0.nextJobId 50) sched2).1
              rw [hP] at h
              exact h
            have hChain : PhaseInv st0.nextJobId (startState source st0).2 st4 :=
              phaseInv_trans hXinv (phaseInv_trans (phaseInv_progress _ _ _) hPinv)
            cases r with
            | none =>
                dsimp only at hrec
                exact absurd hc (no_completed_via_inv hChain hcre (by simp) hrec)
            | some saved =>
                dsimp only at hcanc hrec
                by_cases hf4 : st4.cancelFlag = true
                · rw [if_pos hf4] at hrec
                  dsimp only at hrec
                  exact absurd hc (no_completed_via_inv hChain hcre (by simp) hrec)
                · rw [if_neg hf4] at hcanc hrec
                  generalize hA : awaitPt st0.nextJobId (dbUpdateJob st4 st0.nextJobId
                      (fun r => { r with
                                    status := DbStatus.completed
                                    endTime := some st4.clock
                                    leadsFound := leads.length
                                    leadsAdded := saved })
                      DbStatus.completed) sched4 = A at hcanc hrec
                  obtain ⟨st5, sched5⟩ := A
                  dsimp only at hcanc hrec
                  generalize hB : awaitPt st0.nextJobId
                      { st5 with lastScraped := some st5.clock, clock := st5.clock + 1 } sched5 =
                      B at hcanc hrec
                  obtain ⟨st6, sched6⟩ := B
                  dsimp only at hcanc hrec
                  have hA1 : (awaitPt st0.nextJobId (dbUpdateJob st4 st0.nextJobId
                      (fun r => { r with
                                    status := DbStatus.completed
                                    endTime := some st4.clock
                                    leadsFound := leads.length
                                    leadsAdded := saved })
                      DbStatus.completed) sched4).1 = st5 := congrArg Prod.fst hA
                  have hB1 : (awaitPt st0.nextJobId
                      { st5 with lastScraped := some st5.clock, clock := st5.clock + 1 }
                      sched5).1 = st6 := congrArg Prod.fst hB
                  have hrec5 : alookup st5.dbJobs st0.nextJobId = some rec :=
                    awaitPt_completed_rec st0.nextJobId
                      { st5 with lastScraped := some st5.clock, clock := st5.clock + 1 } sched5
                      rec (by rw [hB1]; exact hrec) hc
                  rcases awaitPt_canc_row st0.nextJobId
                      { st5 with lastScraped := some st5.clock, clock := st5.clock + 1 } sched5
                      (by rw [hB1]; exact hcanc) with hc6 | hrow6
                  · rcases awaitPt_canc_row st0.nextJobId (dbUpdateJob st4 st0.nextJobId
                        (fun r => { r with
                                      status := DbStatus.completed
                                      endTime := some st4.clock
                                      leadsFound := leads.length
                                      leadsAdded := saved })
                        DbStatus.completed) sched4
                        (by rw [hA1]; exact hc6) with hcW | hrow5
                    · dsimp only [dbUpdateJob] at hcW
                      rcases List.mem_cons.mp hcW with h | h
                      · exact absurd h (by simp)
                      · rcases hChain.canc_flag h with hmem | hflag
                        · exact hTrC hmem
                        · exact hf4 hflag
                    · have hs := hrow5 rec (by rw [hA1]; exact hrec5)
                      rw [hs] at hc
                      exact absurd hc (by simp)
                  · have hs := hrow6 rec (by rw [hB1]; exact hrec)
                    rw [hs] at hc
                    exact absurd hc (by simp)

theorem c3_cancelled_job_amended_witness :
    (cancelScrapingJob stC1 5).1 = true ∧
    (cancelScrapingJob stC1 5).2.cancelFlag = true ∧
    alookup (cancelScrapingJob stC1 5).2.dbJobs 5 =
      some { ({ sourceId := 1, status := DbStatus.running, startTime := 0,
                endTime := none, leadsFound := 0, leadsAdded := 0,
                error := none } : JobRecord) with
             status := DbStatus.cancelled, endTime := some stC1.clock } ∧
    alookup (cancelScrapingJob stC1 5).2.activeJobs 5 = none ∧
    (TraceEv.jobStatusWrite DbStatus.cancelled ∈
        (scrapeSource src3 env3
          [Ev.tick, Ev.tick, Ev.tick, Ev.tick, Ev.tick, Ev.cancelReq] stEmpty).2.trace →
      ∀ rec, alookup (scrapeSource src3 env3
          [Ev.tick, Ev.tick, Ev.tick, Ev.tick, Ev.tick, Ev.cancelReq] stEmpty).2.dbJobs
          stEmpty.nextJobId = some rec →
        rec.status ≠ DbStatus.completed) :=
  c3_cancelled_job_amended src3 env3
    [Ev.tick, Ev.tick, Ev.tick, Ev.tick, Ev.tick, Ev.cancelReq] stEmpty stC1 5
    { sourceId := 1, progress := 40, status := JStatus.running }
    { sourceId := 1, status := DbStatus.running, startTime := 0, endTime := none,
      leadsFound := 0, leadsAdded := 0, error := none }
    rfl rfl rfl

/-- An environment whose main fetch rejects with a non-Error value and
whose fallback fetch rejects with an Error. -/
def env5 : Env :=
  { envD with
    fetchMain := { rejected := some Thrown.nonErr, httpOk := true, httpStatus := 200 }
    fetchFb := { rejected := some (Thrown.errObj "f"), httpOk := true, httpStatus := 200 } }

/-- An environment whose main fetch rejects with an Error object and whose
fallback fetch also rejects. -/
def env5w : Env :=
  { envD with
    fetchMain := { rejected := some (Thrown.errObj "boom"), httpOk := true, httpStatus := 200 }
    fetchFb := { rejected := some (Thrown.errObj "f"), httpOk := true, httpStatus := 200 } }

/-- Claim C5 counterexample: a fetch that rejects with a non-Error thrown
value (and an equally failing fallback) aborts the run — it returns 0 and
the job is deregistered — but no failure is persisted: the row keeps
status running with no endTime and no error message, against the promised
status=failed finalization for every thrown value. -/
theorem c5_counterexample :
    (scrapeSource src3 env5 [] stEmpty).1 = RunResult.returned 0 ∧
    alookup (scrapeSource src3 env5 [] stEmpty).2.dbJobs 1 =
      some { sourceId := 3, status := DbStatus.running, startTime := 0, endTime := none,
             leadsFound := 0, leadsAdded := 0, error := none } ∧
    alookup (scrapeSource src3 env5 [] stEmpty).2.activeJobs 1 = none ∧
    ¬ (alookup (scrapeSource src3 env5 [] stEmpty).2.dbJobs 1).map JobRecord.status =
      some DbStatus.failed := by
  decide

/-- Claim C5 (amended): when the extraction phase throws, scrapeSource
returns 0 and deregisters the job; the failure finalization happens only
for Error objects: an Error with message m is persisted as status failed
(the failed write appears in the trace, and the row afterwards carries the
error message and an end time regardless of what external operations do
during the awaited write); when no external operation lands at that await
the row stays in status failed, while a concurrent cancel may overwrite
the status since the entry is still registered.  A thrown non-Error value
skips the store update entirely, leaving the store as it was. -/
theorem c5_failure_finalization_amended
    (source : ScrapingSource) (env : Env) (sched : List Ev) (st0 : EngineState) (t : Thrown)
    (h0 : isScrapingRunning st0 source.id = false)
    (hex : (extractPhase source env st0.nextJobId (startState source st0).2 sched).1 =
      Except.error t) :
    (scrapeSource source env sched st0).1 = RunResult.returned 0 ∧
    alookup (scrapeSource source env sched st0).2.activeJobs st0.nextJobId = none ∧
    (∀ m, t = Thrown.errObj m →
      TraceEv.jobStatusWrite DbStatus.failed ∈ (scrapeSource source env sched st0).2.trace ∧
      ∃ rec, alookup (scrapeSource source env sched st0).2.dbJobs st0.nextJobId = some rec ∧
        rec.error = some m ∧ (∃ u, rec.endTime = some u) ∧
        (AllTick (extractPhase source env st0.nextJobId
            (startState source st0).2 sched).2.2 →
          rec.status = DbStatus.failed)) ∧
    (t = Thrown.nonErr →
      (scrapeSource source env sched st0).2.dbJobs =
        (extractPhase source env st0.nextJobId (startState source st0).2 sched).2.1.dbJobs) := by
  unfold scrapeSource
  rw [if_neg (by simp [h0])]
  dsimp only
  rw [startState_fst]
  have hpres := (extractPhase_spec source env st0.nextJobId
    (startState source st0).2 sched).1.pres _ (startState_lookup source st0)
  generalize hX : extractPhase source env st0.nextJobId (startState source st0).2 sched = X
    at hex hpres ⊢
  obtain ⟨exr, st2, sched2⟩ := X
  dsimp only at hex hpres ⊢
  subst hex
  dsimp only
  obtain ⟨rec2, hrec2⟩ := hpres
  cases t with
  | errObj m =>
      refine ⟨rfl, alookup_aremove_self _ _, ?_, ?_⟩
      · intro m2 hm2
        cases Thrown.errObj.inj hm2
        have hWrec : alookup (dbUpdateJob st2 st0.nextJobId
            (fun r => { r with status := DbStatus.failed, endTime := some st2.clock,
                               error := some m })
            DbStatus.failed).dbJobs st0.nextJobId =
            some { rec2 with status := DbStatus.failed, endTime := some st2.clock,
                             error := some m } := by
          dsimp only [dbUpdateJob]
          rw [alookup_aupdate_self, hrec2]
          rfl
        constructor
        · apply awaitPt_trace_mem
          exact List.mem_cons_self _ _
        · rcases awaitPt_row_err st0.nextJobId (dbUpdateJob st2 st0.nextJobId
              (fun r => { r with status := DbStatus.failed, endTime := some st2.clock,
                                 error := some m })
              DbStatus.failed) sched2
              { rec2 with status := DbStatus.failed, endTime := some st2.clock,
                          error := some m } hWrec with ⟨recF, hF, hFe, hFt⟩
          refine ⟨recF, hF, hFe, hFt ⟨st2.clock, rfl⟩, ?_⟩
          intro hAT
          have hq := (awaitPt_allTick st0.nextJobId (dbUpdateJob st2 st0.nextJobId
              (fun r => { r with status := DbStatus.failed, endTime := some st2.clock,
                                 error := some m })
              DbStatus.failed) sched2 hAT).1
          rw [hq] at hF
          have hF2 : some { rec2 with status := DbStatus.failed, endTime := some st2.clock,
                                      error := some m } = some recF := by
            rw [← hF]
            exact hWrec.symm
          rw [← Option.some.inj hF2]
      · intro hno
        exact absurd hno (by simp)
  | nonErr =>
      dsimp only
      refine ⟨rfl, alookup_aremove_self _ _, ?_, fun _ => rfl⟩
      intro m2 hm2
      exact absurd hm2 (by simp)

theorem c5_failure_finalization_amended_witness :
    (scrapeSource src3 env5w [] stEmpty).1 = RunResult.returned 0 ∧
    alookup (scrapeSource src3 env5w [] stEmpty).2.activeJobs stEmpty.nextJobId = none ∧
    (∀ m, Thrown.errObj "boom" = Thrown.errObj m →
      TraceEv.jobStatusWrite DbStatus.failed ∈ (scrapeSource src3 env5w [] stEmpty).2.trace ∧
      ∃ rec, alookup (scrapeSource src3 env5w [] stEmpty).2.dbJobs stEmpty.nextJobId =
          some rec ∧
        rec.error = some m ∧ (∃ u, rec.endTime = some u) ∧
        (AllTick (extractPhase src3 env5w stEmpty.nextJobId
            (startState src3 stEmpty).2 []).2.2 →
          rec.status = DbStatus.failed)) ∧
    (Thrown.errObj "boom" = Thrown.nonErr →
      (scrapeSource src3 env5w [] stEmpty).2.dbJobs =
        (extractPhase src3 env5w stEmpty.nextJobId (startState src3 stEmpty).2 []).2.1.dbJobs) :=
  c5_failure_finalization_amended src3 env5w [] stEmpty (Thrown.errObj "boom") rfl rfl

/-- A source whose selector configuration has a container selector but no
company-name selector. -/
def src6 : ScrapingSource :=
  { id := 6, name := "Retailers", url := "https://example.com/retail",
    selectors := some { leadContainer := some ".card", companyName := none } }

/-- A page on which the configured container matches one element and one
generic business card with a discoverable title exists. -/
def env6 : Env :=
  { envD with containers := [{ nameText := "RealCo" }],
              cards := [{ title := "FallbackCo" }] }

/-- Claim C6 counterexample: a configuration missing the company-name
selector is not failed fast — no configuration error is raised (the
configError event never appears in the trace); the tier runs, silently
collects nothing from the matching container, and the fallback result is
returned because the collected list is empty. -/
theorem c6_counterexample :
    (scrapeGenericWebsite src6 env6 1 (startState src6 stEmpty).2 []).1 =
      Except.ok [{ companyName := "FallbackCo" }] ∧
    TraceEv.configError ∉
      (scrapeGenericWebsite src6 env6 1 (startState src6 stEmpty).2 []).2.1.trace :=
  ⟨rfl, by decide⟩

/-- Claim C6 (amended): the configured tier checks only the presence of
the selectors object and of its container selector — when either is
missing it fails fast with the configuration error, whose throw falls
through to the generic fallback; a missing company-name selector is not
checked: the tier runs and the fallback is consulted only when the
collected lead list turns out empty. -/
theorem c6_config_error_amended
    (source : ScrapingSource) (env : Env) (jid : Nat) (st : EngineState) (sched : List Ev)
    (hrej : env.fetchMain.rejected = none) (hok : env.fetchMain.httpOk = true) :
    (source.selectors = none →
      (genericTry source env jid st sched).1 =
        Except.error (Thrown.errObj "Invalid selectors configuration") ∧
      TraceEv.configError ∈ (genericTry source env jid st sched).2.1.trace) ∧
    (∀ sel, source.selectors = some sel → sel.leadContainer = none →
      (genericTry source env jid st sched).1 =
        Except.error (Thrown.errObj "Invalid selectors configuration") ∧
      TraceEv.configError ∈ (genericTry source env jid st sched).2.1.trace) ∧
    (∀ t l, (genericTry source env jid st sched).1 = Except.error t →
      (scrapeWithGenericSelectors env jid (genericTry source env jid st sched).2.1
        (genericTry source env jid st sched).2.2).1 = Except.ok l →
      (scrapeGenericWebsite source env jid st sched).1 = Except.ok l) := by
  refine ⟨?_, ?_, ?_⟩
  · intro hsel
    unfold genericTry
    dsimp only
    generalize awaitPt jid (updateJobProgress st jid 10) sched = A
    obtain ⟨st1, sched1⟩ := A
    dsimp only
    rw [hrej]
    dsimp only
    rw [if_neg (by rw [hok]; exact fun h => Bool.noConfusion h)]
    generalize awaitPt jid st1 sched1 = B
    obtain ⟨st2, sched2⟩ := B
    dsimp only
    rw [hsel]
    exact ⟨rfl, List.mem_cons_self _ _⟩
  · intro sel hsel hlc
    unfold genericTry
    dsimp only
    generalize awaitPt jid (updateJobProgress st jid 10) sched = A
    obtain ⟨st1, sched1⟩ := A
    dsimp only
    rw [hrej]
    dsimp only
    rw [if_neg (by rw [hok]; exact fun h => Bool.noConfusion h)]
    generalize awaitPt jid st1 sched1 = B
    obtain ⟨st2, sched2⟩ := B
    dsimp only
    rw [hsel]
    dsimp only
    rw [hlc]
    exact ⟨rfl, List.mem_cons_self _ _⟩
  · intro t l hGt hS
    unfold scrapeGenericWebsite
    generalize hG : genericTry source env jid st sched = G at hGt hS ⊢
    obtain ⟨r, stG, schedG⟩ := G
    dsimp only at hGt hS ⊢
    subst hGt
    dsimp only
    generalize hS2 : scrapeWithGenericSelectors env jid stG schedG = S at hS ⊢
    obtain ⟨rs, stS, schedS⟩ := S
    dsimp only at hS ⊢
    subst hS
    rfl

theorem c6_config_error_amended_witness :
    (src6.selectors = none →
      (genericTry src6 env6 1 (startState src6 stEmpty).2 []).1 =
        Except.error (Thrown.errObj "Invalid selectors configuration") ∧
      TraceEv.configError ∈ (genericTry src6 env6 1 (startState src6 stEmpty).2 []).2.1.trace) ∧
    (∀ sel, src6.selectors = some sel → sel.leadContainer = none →
      (genericTry src6 env6 1 (startState src6 stEmpty).2 []).1 =
        Except.error (Thrown.errObj "Invalid selectors configuration") ∧
      TraceEv.configError ∈ (genericTry src6 env6 1 (startState src6 stEmpty).2 []).2.1.trace) ∧
    (∀ t l, (genericTry src6 env6 1 (startState src6 stEmpty).2 []).1 = Except.error t →
      (scrapeWithGenericSelectors env6 1 (genericTry src6 env6 1 (startState src6 stEmpty).2 []).2.1
        (genericTry src6 env6 1 (startState src6 stEmpty).2 []).2.2).1 = Except.ok l →
      (scrapeGenericWebsite src6 env6 1 (startState src6 stEmpty).2 []).1 = Except.ok l) :=
  c6_config_error_amended src6 env6 1 (startState src6 stEmpty).2 [] rfl rfl

/-- Claim C9 counterexample: on the two-element page env3, a pause request
that lands at the await point of the first createLead call does not stop
that lead: the engine persists it and reports progress 50 while the entry
already shows paused (both events appear in the trace with a paused
observation), and only then blocks; after the scheduled resume the run
still completes with both leads. -/
theorem c9_counterexample :
    TraceEv.persistLead (some JStatus.paused) ∈
      (scrapeSource src3 env3
        [Ev.tick, Ev.tick, Ev.tick, Ev.tick, Ev.pauseReq, Ev.resumeReq, Ev.tick]
        stEmpty).2.trace ∧
    TraceEv.progressWrite 50 (some JStatus.paused) ∈
      (scrapeSource src3 env3
        [Ev.tick, Ev.tick, Ev.tick, Ev.tick, Ev.pauseReq, Ev.resumeReq, Ev.tick]
        stEmpty).2.trace ∧
    (scrapeSource src3 env3
      [Ev.tick, Ev.tick, Ev.tick, Ev.tick, Ev.pauseReq, Ev.resumeReq, Ev.tick]
      stEmpty).1 = RunResult.returned 2 ∧
    (alookup (scrapeSource src3 env3
      [Ev.tick, Ev.tick, Ev.tick, Ev.tick, Ev.pauseReq, Ev.resumeReq, Ev.tick]
      stEmpty).2.dbJobs 1).map JobRecord.status = some DbStatus.completed := by
  refine ⟨by decide, by decide, rfl, by decide⟩

/-- A tracker holding a paused entry for job 1 together with its stored
row. -/
def stC9 : EngineState :=
  { activeJobs := [(1, { sourceId := 4, progress := 50, status := JStatus.paused })],
    dbJobs := [(1, { sourceId := 4, status := DbStatus.paused, startTime := 0,
                     endTime := none, leadsFound := 0, leadsAdded := 0, error := none })],
    dbLeads := 0, nextJobId := 2, clock := 5, cancelFlag := false,
    lastScraped := none, trace := [] }

/-- Claim C9 (amended): while the engine blocks in waitForResume no lead
is persisted and no progress value is reported — the lead store is
unchanged and the wait adds only job status writes to the trace; however
the lead already in flight when the pause lands is still persisted (with
its progress write) before the wait begins; and a persistence loop entered
with a paused entry, given a schedule that resumes the job during the
wait, still persists every lead, so the job can go on to complete. -/
theorem c9_pause_amended (jid : Nat) (st : EngineState) (sched : List Ev)
    (total : Nat) (env : Env) (l0 : Lead) (L2 : List Lead)
    (hfl : st.cancelFlag = false)
    (hst : (alookup st.activeJobs jid).map JobInfo.status = some JStatus.paused)
    (hper : ∀ j, env.persistOk j = true) :
    (waitForResume jid st sched).2.1.dbLeads = st.dbLeads ∧
    (∀ x ∈ (waitForResume jid st sched).2.1.trace,
      x ∈ st.trace ∨ ∃ s, x = TraceEv.jobStatusWrite s) ∧
    (persistLoop jid total env (l0 :: L2) 0 0 st
      (Ev.tick :: Ev.resumeReq :: List.replicate L2.length Ev.tick)).1 =
      some (1 + L2.length) := by
  obtain ⟨w1, w2, _⟩ := waitForResume_spec jid sched st
  exact ⟨w1, w2, (persistLoop_pausedStart jid total env l0 L2 st hfl hst hper).1⟩

theorem c9_pause_amended_witness :
    (waitForResume 1 stC9 []).2.1.dbLeads = stC9.dbLeads ∧
    (∀ x ∈ (waitForResume 1 stC9 []).2.1.trace,
      x ∈ stC9.trace ∨ ∃ s, x = TraceEv.jobStatusWrite s) ∧
    (persistLoop 1 1 envD [{ companyName := "X" }] 0 0 stC9
      (Ev.tick :: Ev.resumeReq :: List.replicate (List.length ([] : List Lead)) Ev.tick)).1 =
      some (1 + List.length ([] : List Lead)) :=
  c9_pause_amended 1 stC9 [] 1 envD { companyName := "X" } [] rfl rfl (fun _ => rfl)

/-- A configured source whose container selector matches nothing. -/
def src7 : ScrapingSource :=
  { id := 7, name := "Bakers", url := "https://example.com/bakers",
    selectors := some { leadContainer := some ".row", companyName := some ".name" } }

/-- A page with no matching container but one generic business card. -/
def env7 : Env := { envD with cards := [{ title := "CardCo" }] }

/-- The row the quiet src7 run persists at completion. -/
def recC2 : JobRecord :=
  { sourceId := 7, status := DbStatus.completed, startTime := 0, endTime := some 6,
    leadsFound := 1, leadsAdded := 1, error := none }

theorem c2_completed_job_invariants_witness :
    0 ≤ recC2.leadsAdded ∧ recC2.leadsAdded ≤ recC2.leadsFound ∧
    (∃ L, (extractPhase src7 env7 stEmpty.nextJobId (startState src7 stEmpty).2 []).1 =
        Except.ok L ∧ recC2.leadsFound = L.length) ∧
    (scrapeSource src7 env7 [] stEmpty).2.dbLeads = stEmpty.dbLeads + recC2.leadsAdded ∧
    (∃ t, recC2.endTime = some t ∧ recC2.startTime ≤ t) :=
  c2_completed_job_invariants src7 env7 [] stEmpty wf_stEmpty
    (scrapeSource src7 env7 [] stEmpty).1 (scrapeSource src7 env7 [] stEmpty).2 rfl
    recC2 (by decide) rfl

theorem c7_fallback_engaged_completes_witness :
    (scrapeSource src7 env7 [] stEmpty).1 = RunResult.returned (fallbackList env7).length ∧
    1 ≤ (fallbackList env7).length ∧
    ∃ rec, alookup (scrapeSource src7 env7 [] stEmpty).2.dbJobs stEmpty.nextJobId = some rec ∧
      rec.status = DbStatus.completed ∧ rec.leadsFound = (fallbackList env7).length :=
  c7_fallback_engaged_completes src7 env7 stEmpty
    { leadContainer := some ".row", companyName := some ".name" } ".row"
    (by decide) rfl rfl rfl rfl rfl rfl rfl
    ⟨{ title := "CardCo" }, List.mem_cons_self _ _, by decide⟩
    rfl (fun _ => rfl)

/-- A page on which the configured container selector matches three
elements with non-empty names. -/
def env10 : Env :=
  { envD with containers := [{ nameText := "Alpha" }, { nameText := "Beta" },
                             { nameText := "Gamma" }] }

theorem c10_truncated_extraction_witness :
    (scrapeSource src3 env10
        (Ev.tick :: Ev.tick :: (List.replicate 1 Ev.tick ++ Ev.pauseReq :: Ev.tick ::
          Ev.resumeReq ::
          List.replicate ((collectG { leadContainer := some ".row", companyName := some ".name" }
            (env10.containers.take 1)).length - 1) Ev.tick))
        stEmpty).1 =
      RunResult.returned (collectG { leadContainer := some ".row", companyName := some ".name" }
        (env10.containers.take 1)).length ∧
    (collectG { leadContainer := some ".row", companyName := some ".name" }
      (env10.containers.take 1)).length ≤ 1 ∧
    (collectG { leadContainer := some ".row", companyName := some ".name" }
      (env10.containers.take 1)).length < env10.containers.length ∧
    ∃ rec, alookup (scrapeSource src3 env10
        (Ev.tick :: Ev.tick :: (List.replicate 1 Ev.tick ++ Ev.pauseReq :: Ev.tick ::
          Ev.resumeReq ::
          List.replicate ((collectG { leadContainer := some ".row", companyName := some ".name" }
            (env10.containers.take 1)).length - 1) Ev.tick))
        stEmpty).2.dbJobs stEmpty.nextJobId = some rec ∧
      rec.status = DbStatus.completed ∧
      rec.leadsFound = (collectG { leadContainer := some ".row", companyName := some ".name" }
        (env10.containers.take 1)).length ∧
      rec.leadsAdded = (collectG { leadContainer := some ".row", companyName := some ".name" }
        (env10.containers.take 1)).length :=
  c10_truncated_extraction src3 env10 stEmpty
    { leadContainer := some ".row", companyName := some ".name" } ".row" 1
    (by decide) rfl rfl rfl rfl (by decide) (by decide) rfl (fun _ => rfl)
